import Mathlib

/-!
A shallow embedding of the `test_lang` parser front end
(`src/test_lang/src/parser/mod.rs` and `src/test_lang/src/parser/expr.rs`),
together with proofs about its behaviour on token streams.

The parser consumes an already-tokenized stream of `(token, span)` pairs.
Interned symbols are modelled as natural numbers; `f64` literal payloads are
carried opaquely (the parser never computes with them); Rust's
`Range<usize>` spans become pairs of naturals.  Rust mutation of the parser
struct becomes explicit state passing, recursion is made total with a fuel
parameter (running out of fuel is reported as a distinguished outcome with
no Rust counterpart), and `panic!` / `todo!` / `unreachable!` / `unwrap`
failures are modelled as a distinguished `panicked` outcome.

The token, AST and error declarations live in modules of the crate that are
not part of the source tree snapshot (`crate::lexer`, `crate::ast`,
`test_lang_common::error`); they are reconstructed from their uses inside
`src/test_lang/src/parser/*` together with the sibling crate's
`src/src/lexer.rs`, `src/src/ast.rs` and `src/src/error.rs`, which declare
the same entities minus the handful of variants (`Keyword::Constructor`,
`Expr::MethodCall`, `Expr::AssociatedCall`, `Expr::AssociatedValue`) that
the `test_lang` parser visibly constructs.
-/

namespace TestLang

/-- Interned identifier symbols (`string_interner::DefaultSymbol`). -/
abbrev Symbol := Nat

/-- Opaque carrier for `f64` literal payloads; the parser only moves these
around and never computes with them. -/
structure F64 where
  bits : Nat
deriving DecidableEq

/-- A half-open byte range `start..end` into the source buffer
(`logos::Span` = `Range<usize>`).  Rust's `end` field is called `stop`
here because `end` is reserved. -/
structure Span where
  start : Nat
  stop : Nat
deriving DecidableEq

/-- Keywords of the language, from `src/src/lexer.rs` plus the
`constructor` keyword consumed by `src/test_lang/src/parser/mod.rs`. -/
inductive Keyword where
  | Function | Var | Let | Const | Class | Super | Mut | Set | Copy
  | True | False | Delete | If | Else | While | And | Or | Ref
  | Return | Break | Continue | Print | Public | Constructor
deriving DecidableEq

/-- Lexical tokens, from `src/src/lexer.rs` (the `test_lang` lexer adds
`::` and the `constructor` keyword, visible from the parser's uses). -/
inductive Token where
  | Ident (s : Symbol)
  | Integer (i : Int)
  | Float (f : F64)
  | Keyword (k : Keyword)
  | ParenStart | ParenEnd
  | CurlyStart | CurlyEnd
  | SquareStart | SquareEnd
  | Assign | Colon
  | Equal | NotEqual | Greater | Less | GreaterEqual | LessEqual
  | Add | Sub | Mul | Div | Mod
  | Comma | Dot | Semicolon | Not | Newline
  | String (s : String)
  | ColonColon
deriving DecidableEq

/-- A raw lexer item: either a token or a deferred lexical error
(`Result<Token, ()>` from the `logos` iterator). -/
inductive LexItem where
  | tok (t : Token)
  | lexErr
deriving DecidableEq

/-- Rust `format!("{:?}", tok)` used by `Parser::try_next` to label an
`ExpectedToken` diagnostic; the exact string never influences parsing. -/
def tokenDebugStr : Token → String
  | .Ident s => "Ident(" ++ toString s ++ ")"
  | .Integer i => "Integer(" ++ toString i ++ ")"
  | .Float f => "Float(" ++ toString f.bits ++ ")"
  | .Keyword _ => "Keyword(..)"
  | .ParenStart => "ParenStart"
  | .ParenEnd => "ParenEnd"
  | .CurlyStart => "CurlyStart"
  | .CurlyEnd => "CurlyEnd"
  | .SquareStart => "SquareStart"
  | .SquareEnd => "SquareEnd"
  | .Assign => "Assign"
  | .Colon => "Colon"
  | .Equal => "Equal"
  | .NotEqual => "NotEqual"
  | .Greater => "Greater"
  | .Less => "Less"
  | .GreaterEqual => "GreaterEqual"
  | .LessEqual => "LessEqual"
  | .Add => "Add"
  | .Sub => "Sub"
  | .Mul => "Mul"
  | .Div => "Div"
  | .Mod => "Mod"
  | .Comma => "Comma"
  | .Dot => "Dot"
  | .Semicolon => "Semicolon"
  | .Not => "Not"
  | .Newline => "Newline"
  | .String s => "String(" ++ s ++ ")"
  | .ColonColon => "ColonColon"

/-- Parse-error kinds reachable from the parser, from the sibling crate's
`src/src/error.rs` (`ErrorType`); `ExpectedToken` carries the formatted
token text as in the `test_lang` crate. -/
inductive ErrorType where
  | ExpectedToken (tok : String)
  | ExpectedIdent
  | UnclosedParen
  | UnclosedCurly
  | UnclosedSquare
  | UnexpectedToken
  | UnexpectedEOF
  | LineEnding
  | TooManyParams
  | TooManyArgs
  | ConstructorRedefined
  | ConstructorRequired
deriving DecidableEq

/-- Diagnostics, from `src/src/error.rs` (`Error`): one span, or two spans
with an explanatory message for the first. -/
inductive Error where
  | Standard (errType : ErrorType) (span : Span)
  | TwoLocation (errType : ErrorType) (firstMsg : String) (first second : Span)
deriving DecidableEq

/-- `Error::new(span, err_type)`. -/
def Error.new (span : Span) (errType : ErrorType) : Error :=
  .Standard errType span

/-- `Error::two_location(first, second, first_msg, err_type)`. -/
def Error.two_location (first second : Span) (firstMsg : String)
    (errType : ErrorType) : Error :=
  .TwoLocation errType firstMsg first second

/-- `Error::eof(span)`. -/
def Error.eof (span : Span) : Error := Error.new span .UnexpectedEOF

/-- `Error::token(span)`. -/
def Error.token (span : Span) : Error := Error.new span .UnexpectedToken

/-- `Error::ident(span)`. -/
def Error.ident (span : Span) : Error := Error.new span .ExpectedIdent

/-- `Error::err_type`. -/
def Error.errType : Error → ErrorType
  | .Standard t _ => t
  | .TwoLocation t _ _ _ => t

/-- Permission bit-sets (`bitflags` over `u32`), from `src/src/ast.rs`. -/
abbrev Permissions := Nat

namespace Permissions

def IS_VARIABLE : Permissions := 0b100000
def REASSIGN : Permissions := 0b110000
def MUTATE : Permissions := 0b001000
def PUBLIC : Permissions := 0b000100
def PUBLIC_MUTABLE : Permissions := 0b000110
def PUBLIC_REASSIGN : Permissions := 0b100101

def empty : Permissions := 0

/-- `Permissions::contains`. -/
def contains (p f : Permissions) : Bool := Nat.land p f == f

/-- Bitwise union (`|` / `|=`). -/
def union (p f : Permissions) : Permissions := Nat.lor p f

end Permissions

/-- Binary operators, from `src/src/ast.rs`. -/
inductive BinaryOp where
  | Add | Sub | Mul | Div | Mod
  | Equal | NotEqual | Greater | Less | GreaterEqual | LessEqual
  | LogicAnd | LogicOr
deriving DecidableEq

/-- Unary operators, from `src/src/ast.rs`. -/
inductive UnaryOp where
  | Negate | Not
deriving DecidableEq

/-- Function flavours, from `src/src/ast.rs`. -/
inductive FunctionType where
  | Method | MutableMethod | Normal
deriving DecidableEq

/-- Expressions, from `src/src/ast.rs` plus the `MethodCall`,
`AssociatedCall` and `AssociatedValue` variants constructed by
`src/test_lang/src/parser/mod.rs`.  `Box<[Self;2]>` payloads become two
explicit fields. -/
inductive Expr : Type where
  | Copy (span : Span) (name : Symbol)
  | BinaryOp (span : Span) (op : BinaryOp) (left right : Expr)
  | UnaryOp (span : Span) (op : UnaryOp) (arg : Expr)
  | Integer (span : Span) (i : Int)
  | Float (span : Span) (f : F64)
  | String (span : Span) (s : String)
  | Named (span : Span) (name : Symbol)
  | Field (span : Span) (left : Expr) (name : Symbol)
  | Call (span : Span) (items : List Expr)
  | Bool (span : Span) (b : Bool)
  | Ref (span : Span) (varType : Permissions) (name : Symbol)
  | List (span : Span) (items : List Expr)
  | Index (span : Span) (left right : Expr)
  | Object (span : Span) (items : List (Span × Symbol × Expr))
  | MethodCall (span : Span) (name : Symbol) (args : List Expr)
  | AssociatedCall (span : Span) (name : Symbol) (args : List Expr)
  | AssociatedValue (span : Span) (left right : Symbol)

/-- `GetSpan for Expr`. -/
def Expr.span : Expr → Span
  | .Copy sp _ => sp
  | .BinaryOp sp _ _ _ => sp
  | .UnaryOp sp _ _ => sp
  | .Integer sp _ => sp
  | .Float sp _ => sp
  | .String sp _ => sp
  | .Named sp _ => sp
  | .Field sp _ _ => sp
  | .Call sp _ => sp
  | .Bool sp _ => sp
  | .Ref sp _ _ => sp
  | .List sp _ => sp
  | .Index sp _ _ => sp
  | .Object sp _ => sp
  | .MethodCall sp _ _ => sp
  | .AssociatedCall sp _ _ => sp
  | .AssociatedValue sp _ _ => sp

mutual

/-- Statements, from `src/src/ast.rs` plus the per-class `id` field that
`test_lang`'s `parse_class_stmt` fills in, and the `constructor` slot. -/
inductive Stmt : Type where
  | Function (span : Span) (f : Function)
  | DeleteVar (span : Span) (name : Symbol)
  | Class (span : Span) (id : Nat) (permissions : Permissions)
      (name : Symbol) (constructor : Option Function)
      (fields : List (Permissions × Symbol))
      (methods : List Function) (associated : List Function)
  | CreateConst (span : Span) (name : Symbol) (data : Expr)
  | CreateVar (span : Span) (varType : Permissions) (name : Symbol)
      (data : Option Expr)
  | SetVar (span : Span) (left : List Symbol) (data : Expr)
  | If (span : Span) (conditions : List (Expr × Block))
      (default : Option Block)
  | WhileLoop (span : Span) (condition : Expr) (body : Block)
  | Expression (span : Span) (e : Expr)
  | Return (span : Span) (e : Option Expr)
  | Continue (span : Span)
  | Break (span : Span)
  | Print (span : Span) (e : Expr)

/-- `Function`, from `src/src/ast.rs`. -/
inductive Function : Type where
  | mk (permissions : Permissions) (funcType : FunctionType) (id : Nat)
      (span : Span) (name : Symbol)
      (params : List (Span × Permissions × Symbol)) (body : Block)

/-- `Block`, from `src/src/ast.rs`. -/
inductive Block : Type where
  | mk (span : Span) (body : List Stmt)

end

/-- `GetSpan for Function`. -/
def Function.span : Function → Span
  | .mk _ _ _ sp _ _ _ => sp

/-- The `id` field of a `Function`. -/
def Function.id : Function → Nat
  | .mk _ _ i _ _ _ _ => i

/-- The parser state: the remaining lexer stream, the two-token lookahead
buffer, the three tracked spans, the non-fatal diagnostic accumulator and
the id counters (`Parser` in `src/test_lang/src/parser/mod.rs`). -/
structure PState where
  rest : List (LexItem × Span)
  la0 : Option LexItem
  la1 : Option LexItem
  s0 : Span
  s1 : Span
  s2 : Span
  sourceLen : Nat
  nonFatal : List Error
  funcCount : Nat
  classCount : Nat
  constructorSym : Symbol

/-- Outcome of running a parser step: success or fatal error (each with the
updated state), a panic (Rust `panic!`/`todo!`/`unreachable!`/`unwrap`
failure), or fuel exhaustion (an artifact of the embedding only). -/
inductive POut (α : Type) : Type where
  | ok (a : α) (s : PState)
  | err (e : Error) (s : PState)
  | panicked
  | fuelOut

/-- State-passing parser computations. -/
abbrev PM (α : Type) : Type := PState → POut α

/-- Sequencing with Rust `?` semantics: fatal errors, panics and fuel
exhaustion short-circuit. -/
def PM.bind {α β : Type} (m : PM α) (f : α → PM β) : PM β := fun s =>
  match m s with
  | .ok a s' => f a s'
  | .err e s' => .err e s'
  | .panicked => .panicked
  | .fuelOut => .fuelOut

def PM.pure {α : Type} (a : α) : PM α := fun s => .ok a s

def PM.throw {α : Type} (e : Error) : PM α := fun s => .err e s

namespace PState

/-- `Parser::span` (span of the current token). -/
def span (s : PState) : Span := s.s0

/-- `Parser::peek_span`. -/
def peekSpan (s : PState) : Span := s.s1

/-- `Parser::peek1_span`. -/
def peek1Span (s : PState) : Span := s.s2

/-- `Parser::peek`, as a pure read of the state. -/
def peekE (s : PState) : Except Error Token :=
  match s.la0 with
  | some (.tok t) => .ok t
  | some .lexErr => .error (Error.token s.s0)
  | none => .error (Error.eof s.s0)

/-- `Parser::peek1`, as a pure read of the state. -/
def peek1E (s : PState) : Except Error Token :=
  match s.la1 with
  | some (.tok t) => .ok t
  | some .lexErr => .error (Error.token s.s0)
  | none => .error (Error.eof s.s0)

/-- `Parser::at_eof`. -/
def atEof (s : PState) : Bool := s.la0.isNone

/-- `Parser::push_err`. -/
def pushErr (s : PState) (e : Error) : PState :=
  { s with nonFatal := s.nonFatal ++ [e] }

/-- `Parser::get_class_id`. -/
def getClassId (s : PState) : Nat × PState :=
  (s.classCount, { s with classCount := s.classCount + 1 })

/-- `Parser::get_func_id`. -/
def getFuncId (s : PState) : Nat × PState :=
  (s.funcCount, { s with funcCount := s.funcCount + 1 })

/-- The result part of `Parser::next`: report the departing lookahead item
from the already-shuffled state `s'` (a deferred lexical error surfaces as
an unexpected-token diagnostic at the point of consumption). -/
def nextRet (ret : Option LexItem) (s' : PState) :
    Except Error Token × PState :=
  match ret with
  | some (.tok t) => (.ok t, s')
  | some .lexErr => (.error (Error.token s'.s0), s')
  | none => (.error (Error.eof s'.s0), s')

/-- `Parser::next`: shuffle the lookahead window left by one, pull the next
lexer item, update the three spans, and report the departing item. -/
def nextT (s : PState) : Except Error Token × PState :=
  match s.rest with
  | (lt, sp) :: rest' =>
      nextRet s.la0 { s with rest := rest', la0 := s.la1, la1 := some lt,
                             s0 := s.s1, s1 := s.s2, s2 := sp }
  | [] =>
      nextRet s.la0 { s with la0 := s.la1, la1 := none,
                             s0 := s.s1, s1 := s.s2,
                             s2 := ⟨s.sourceLen, s.sourceLen⟩ }

end PState

/-- `self.next()` used with `?`. -/
def PM.next : PM Token := fun s =>
  match PState.nextT s with
  | (.ok t, s') => .ok t s'
  | (.error e, s') => .err e s'

/-- `self.next().ok()` / `self.next().unwrap_or(..)`-style use where the
result is discarded and errors are ignored. -/
def PM.nextIgnore : PM Unit := fun s => .ok () (PState.nextT s).2

/-- `self.peek()` used with `?`. -/
def PM.peek : PM Token := fun s =>
  match s.peekE with
  | .ok t => .ok t s
  | .error e => .err e s

/-- `self.peek1()` used with `?`. -/
def PM.peek1 : PM Token := fun s =>
  match s.peek1E with
  | .ok t => .ok t s
  | .error e => .err e s

/-- `Parser::skip_newline`. -/
def skipNewline : Nat → PM Unit
  | 0 => fun _ => .fuelOut
  | fuel + 1 => fun s =>
      match s.peekE with
      | .ok .Newline => skipNewline fuel (PState.nextT s).2
      | _ => .ok () s

/-- `Parser::try_next`. -/
def tryNext (tok : Token) : PM Unit := fun s =>
  match s.peekE with
  | .error e => .err e s
  | .ok t =>
      if t = tok then
        PM.bind PM.next (fun _ => PM.pure ()) s
      else
        .err (Error.new s.peekSpan (.ExpectedToken (tokenDebugStr tok))) s

/-- `Parser::ident`. -/
def identP : PM Symbol :=
  PM.bind PM.next fun tok => fun s =>
    match tok with
    | .Ident i => .ok i s
    | _ => .err (Error.ident s.span) s

/-- `Parser::parse_stmt_end`. -/
def parseStmtEnd : PM Unit := fun s =>
  match s.peekE with
  | .ok .Newline | .ok .Semicolon => PM.bind PM.next (fun _ => PM.pure ()) s
  | .ok _ => .err (Error.new s.peekSpan .LineEnding) s
  | .error _ => .ok () s

/-- The token-to-operator table inside `Parser::parse_bin_op`. -/
def binOpOfPeek : Except Error Token → Option BinaryOp
  | .ok .Add => some .Add
  | .ok .Sub => some .Sub
  | .ok .Mul => some .Mul
  | .ok .Div => some .Div
  | .ok .Mod => some .Mod
  | .ok .Equal => some .Equal
  | .ok .NotEqual => some .NotEqual
  | .ok .Greater => some .Greater
  | .ok .Less => some .Less
  | .ok .GreaterEqual => some .GreaterEqual
  | .ok .LessEqual => some .LessEqual
  | .ok (.Keyword .And) => some .LogicAnd
  | .ok (.Keyword .Or) => some .LogicOr
  | _ => none

/-- `Parser::parse_bin_op`: decide from one or two tokens of lookahead
whether a binary operator continues the expression, consuming one token
(`self.next().unwrap()`) if so. -/
def parseBinOp (peekSecond : Bool) : PM (Option BinaryOp) := fun s =>
  let peeked := if peekSecond then s.peek1E else s.peekE
  match binOpOfPeek peeked with
  | none => .ok none s
  | some op =>
      match PState.nextT s with
      | (.ok _, s') => .ok (some op) s'
      | (.error _, _) => .panicked

/-- `Parser::parse_publicity`: the accumulated `perms` bit-set is threaded
explicitly; the final `contains(PUBLIC)` test decides `Some`/`None`. -/
def parsePublicity : PM (Option Permissions) :=
  PM.bind
    (PM.bind PM.peek fun t1 =>
      match t1 with
      | .Keyword .Public =>
          PM.bind PM.next fun _ =>
          PM.bind PM.peek fun t2 =>
            match t2 with
            | .ParenStart =>
                PM.bind PM.next fun _ =>
                PM.bind PM.next fun t3 =>
                PM.bind
                  (match t3 with
                   | .Keyword .Var =>
                       PM.bind PM.peek fun t4 =>
                         match t4 with
                         | .Keyword .Mut =>
                             PM.bind PM.next fun _ =>
                               PM.pure (Permissions.union
                                 Permissions.PUBLIC_REASSIGN
                                 Permissions.PUBLIC_MUTABLE)
                         | _ => PM.pure Permissions.PUBLIC_REASSIGN
                   | .Keyword .Mut => PM.pure Permissions.PUBLIC_MUTABLE
                   | _ => fun s => .err (Error.token s.span) s)
                  fun perms =>
                PM.bind (tryNext .ParenEnd) fun _ =>
                  PM.pure perms
            | _ => PM.pure Permissions.PUBLIC
      | _ => PM.pure Permissions.empty)
    fun perms =>
      if Permissions.contains perms Permissions.PUBLIC then
        PM.pure (some perms)
      else
        PM.pure none

/-- `Parser::parse_var_type`. -/
def parseVarType : PM Permissions := fun s =>
  match PState.nextT s with
  | (.error _, s') => .err (Error.token s'.span) s'
  | (.ok t, s') =>
      match t with
      | .Keyword .Var =>
          (varTypeMut (Permissions.union Permissions.empty
            Permissions.REASSIGN)) s'
      | .Keyword .Let =>
          (varTypeMut (Permissions.union Permissions.empty
            Permissions.IS_VARIABLE)) s'
      | _ => .err (Error.token s'.span) s'
where
  /-- The trailing optional `mut` qualifier of `parse_var_type`. -/
  varTypeMut (varType : Permissions) : PM Permissions := fun s =>
    match s.peekE with
    | .ok (.Keyword .Mut) =>
        PM.bind PM.next (fun _ =>
          PM.pure (Permissions.union varType Permissions.MUTATE)) s
    | _ => .ok varType s

/-- `Parser::parse_partial_var_type`. -/
def parsePartialVarType : PM Permissions :=
  PM.bind PM.peek fun t =>
    match t with
    | .Keyword .Mut =>
        PM.bind PM.next fun _ => PM.pure Permissions.MUTATE
    | .Keyword .Var =>
        PM.bind PM.next fun _ =>
        PM.bind PM.peek fun t2 =>
          match t2 with
          | .Keyword .Mut =>
              PM.bind PM.next fun _ =>
                PM.pure (Permissions.union Permissions.REASSIGN
                  Permissions.MUTATE)
          | _ => PM.pure Permissions.REASSIGN
    | _ => PM.pure Permissions.empty

/-- `Parser::parse_function_param`. -/
def parseFunctionParam : PM (Span × Permissions × Symbol) := fun s =>
  let start := s.peekSpan.start
  (PM.bind parsePartialVarType fun varType =>
   PM.bind identP fun name => fun s' =>
     .ok (⟨start, s'.span.stop⟩, varType, name) s') s

/-- The dotted-path loop of `Parser::parse_set_var_stmt`
(`while let Ok(Token::Dot) = self.peek() { ... }`). -/
def setVarDots : Nat → List Symbol → PM (List Symbol)
  | 0, _ => fun _ => .fuelOut
  | fuel + 1, left => fun s =>
      match s.peekE with
      | .ok .Dot =>
          (PM.bind PM.next fun _ =>
           PM.bind identP fun name =>
           setVarDots fuel (left ++ [name])) s
      | _ => .ok left s

/-- The comma-separated-items loop of `Parser::parse_paren_list`, generic
over the element parser `f`. -/
def parseParenListLoop {T : Type} (f : PM T) :
    Nat → Nat → List T → PM (List T)
  | 0, _, _ => fun _ => .fuelOut
  | fuel + 1, start, items =>
      PM.bind (skipNewline fuel) fun _ => fun s1 =>
        match s1.peekE with
        | .ok .ParenEnd =>
            (PM.bind PM.next fun _ => PM.pure items) s1
        | .error e =>
            if e.errType = .UnexpectedEOF then
              .err (Error.new ⟨start, s1.peekSpan.stop⟩ .UnclosedParen) s1
            else .err e s1
        | .ok _ =>
            match f s1 with
            | .err e s2 =>
                if e.errType = .UnexpectedEOF then
                  .err (Error.new ⟨start, s2.peekSpan.stop⟩ .UnclosedParen) s2
                else .err e s2
            | .panicked => .panicked
            | .fuelOut => .fuelOut
            | .ok item s2 =>
                (PM.bind (skipNewline fuel) fun _ => fun s3 =>
                  match PState.nextT s3 with
                  | (.ok .ParenEnd, s4) => .ok (items ++ [item]) s4
                  | (.ok .Comma, s4) =>
                      parseParenListLoop f fuel start (items ++ [item]) s4
                  | (.ok _, s4) =>
                      .err (Error.new s4.span (.ExpectedToken ")")) s4
                  | (.error e, s4) =>
                      if e.errType = .UnexpectedEOF then
                        .err (Error.new ⟨start, s4.peekSpan.stop⟩
                          .UnclosedParen) s4
                      else .err e s4) s2

/-- `Parser::parse_paren_list`, generic over the element parser `f`. -/
def parseParenList {T : Type} (f : PM T) (fuel : Nat) : PM (List T) :=
  PM.bind (tryNext .ParenStart) fun _ => fun s =>
    parseParenListLoop f fuel s.span.start [] s

/-- The member lists accumulated by the body loop of
`Parser::parse_class_stmt`: fields, methods, associated functions and the
optional constructor. -/
abbrev ClassBody :=
  List (Permissions × Symbol) × List Function × List Function ×
    Option Function

mutual

/-- `Parser::parse_stmt`; each dispatch branch yields the statement and the
`need_ending` flag. -/
def parseStmt : Nat → PM Stmt
  | 0 => fun _ => .fuelOut
  | fuel + 1 =>
      PM.bind
        (PM.bind parsePublicity fun publicity =>
          match publicity with
          | some perms =>
              PM.bind PM.peek fun t =>
                match t with
                | .Keyword .Function =>
                    PM.bind (parseFunctionStmt fuel perms) fun st =>
                      PM.pure (st, false)
                | .Keyword .Class =>
                    PM.bind (parseClassStmt fuel perms) fun st =>
                      PM.pure (st, false)
                | _ => fun s => .err (Error.token s.peekSpan) s
          | none =>
              PM.bind PM.peek fun t =>
                match t with
                | .Keyword .Function =>
                    PM.bind (parseFunctionStmt fuel Permissions.empty)
                      fun st => PM.pure (st, false)
                | .Keyword .Class =>
                    PM.bind (parseClassStmt fuel Permissions.empty)
                      fun st => PM.pure (st, false)
                | .Keyword .If =>
                    PM.bind (parseIfStmt fuel) fun st => PM.pure (st, false)
                | .Keyword .While =>
                    PM.bind (parseWhileStmt fuel) fun st =>
                      PM.pure (st, false)
                | .Keyword .Var | .Keyword .Let =>
                    PM.bind (parseCreateVarStmt fuel) fun st =>
                      PM.pure (st, true)
                | .Keyword .Set =>
                    PM.bind (parseSetVarStmt fuel) fun st =>
                      PM.pure (st, true)
                | .Keyword .Const =>
                    PM.bind (parseCreateConstStmt fuel) fun st =>
                      PM.pure (st, true)
                | .Keyword .Break =>
                    PM.bind PM.next fun _ => fun s =>
                      .ok (Stmt.Break s.span, true) s
                | .Keyword .Continue =>
                    PM.bind PM.next fun _ => fun s =>
                      .ok (Stmt.Continue s.span, true) s
                | .Keyword .Return =>
                    PM.bind PM.next fun _ => fun s =>
                      let start := s.span.start
                      (PM.bind
                        (fun s1 =>
                          match PState.peekE s1 with
                          | .ok .Newline | .ok .Semicolon =>
                              .ok (none : Option Expr) s1
                          | .ok _ =>
                              (PM.bind (parseExpr fuel) fun e =>
                                PM.pure (some e)) s1
                          | .error _ => .ok none s1)
                        fun expr => fun s1 =>
                          .ok (Stmt.Return ⟨start, s1.span.stop⟩ expr, true)
                            s1) s
                | .Keyword .Delete =>
                    PM.bind PM.next fun _ => fun s =>
                      let start := s.span.start
                      (PM.bind identP fun name => fun s1 =>
                        .ok (Stmt.DeleteVar ⟨start, s1.span.stop⟩ name, true)
                          s1) s
                | .Keyword .Print =>
                    PM.bind PM.next fun _ => fun s =>
                      let start := s.span.start
                      (PM.bind (parseExpr fuel) fun data => fun s1 =>
                        .ok (Stmt.Print ⟨start, s1.span.stop⟩ data, true)
                          s1) s
                | _ => fun s =>
                    let start := s.peekSpan.start
                    (PM.bind (parseExpr fuel) fun e => fun s1 =>
                      .ok (Stmt.Expression ⟨start, s1.span.stop⟩ e, true)
                        s1) s)
        fun ret =>
          if ret.2 then
            PM.bind parseStmtEnd fun _ => PM.pure ret.1
          else
            PM.pure ret.1

/-- `Parser::parse_while_stmt`. -/
def parseWhileStmt : Nat → PM Stmt
  | 0 => fun _ => .fuelOut
  | fuel + 1 =>
      PM.bind (tryNext (.Keyword .While)) fun _ => fun s =>
        let start := s.span.start
        (PM.bind (parseExpr fuel) fun condition =>
         PM.bind (parseBlock fuel) fun body => fun s1 =>
           .ok (Stmt.WhileLoop ⟨start, s1.span.stop⟩ condition body) s1) s

/-- `Parser::parse_if_stmt`. -/
def parseIfStmt : Nat → PM Stmt
  | 0 => fun _ => .fuelOut
  | fuel + 1 =>
      PM.bind (tryNext (.Keyword .If)) fun _ => fun s =>
        let start := s.span.start
        (PM.bind (parseExpr fuel) fun c0 =>
         PM.bind (parseBlock fuel) fun b0 =>
         PM.bind (parseIfLoop fuel [(c0, b0)]) fun res => fun s1 =>
           .ok (Stmt.If ⟨start, s1.span.stop⟩ res.1 res.2) s1) s

/-- The `else`/`else if` loop of `Parser::parse_if_stmt`. -/
def parseIfLoop :
    Nat → List (Expr × Block) → PM (List (Expr × Block) × Option Block)
  | 0, _ => fun _ => .fuelOut
  | fuel + 1, conditions => fun s =>
      match s.peekE with
      | .ok (.Keyword .Else) =>
          (PM.bind PM.next fun _ => fun s1 =>
            match s1.peekE with
            | .ok (.Keyword .If) =>
                (PM.bind PM.next fun _ =>
                 PM.bind (parseExpr fuel) fun c =>
                 PM.bind (parseBlock fuel) fun b =>
                 parseIfLoop fuel (conditions ++ [(c, b)])) s1
            | .ok .CurlyStart =>
                (PM.bind (parseBlock fuel) fun b =>
                  PM.pure (conditions, some b)) s1
            | .ok _ =>
                .err (Error.new s1.peek1Span (.ExpectedToken "if")) s1
            | .error e => .err e s1) s
      | .ok _ => .ok (conditions, none) s
      | .error e => .err e s

/-- `Parser::parse_class_stmt`. -/
def parseClassStmt : Nat → Permissions → PM Stmt
  | 0, _ => fun _ => .fuelOut
  | fuel + 1, permissions =>
      PM.bind (tryNext (.Keyword .Class)) fun _ => fun s =>
        let start := s.span.start
        (PM.bind identP fun name =>
         PM.bind (tryNext .CurlyStart) fun _ => fun s1 =>
           let curlyStart := s1.span.start
           (PM.bind (parseClassLoop fuel curlyStart [] [] [] none)
             fun body => fun s2 =>
               match body with
               | (fields, methods, associated, constructor) =>
                 let endPos := s2.span.stop
                 let s3 :=
                   if fields.length > 0 && constructor.isNone then
                     s2.pushErr
                       (Error.new ⟨start, endPos⟩ .ConstructorRequired)
                   else s2
                 let idAndS := s3.getClassId
                 .ok (Stmt.Class ⟨start, endPos⟩ idAndS.1 permissions name
                     constructor fields methods associated) idAndS.2) s1) s

/-- The class-member loop of `Parser::parse_class_stmt` (top of each
iteration: skip line breaks, read publicity, dispatch on the member's
leading token). -/
def parseClassLoop :
    Nat → Nat → List (Permissions × Symbol) → List Function →
      List Function → Option Function → PM ClassBody
  | 0, _, _, _, _, _ => fun _ => .fuelOut
  | fuel + 1, curlyStart, fields, methods, associated, constructor =>
      PM.bind (skipNewline fuel) fun _ =>
      PM.bind parsePublicity fun pubOpt =>
        let permissions := pubOpt.getD Permissions.empty
        fun s =>
        match s.peekE with
        | .ok .CurlyEnd =>
            (PM.bind PM.next fun _ =>
              PM.pure (fields, methods, associated, constructor)) s
        | .ok (.Keyword .Constructor) =>
            (PM.bind (parseFunctionInner fuel .Normal permissions)
              fun newC => fun s1 =>
                let s2 :=
                  match constructor with
                  | some c =>
                      s1.pushErr (Error.two_location c.span newC.span
                        "Constructor previously defined here"
                        .ConstructorRedefined)
                  | none => s1
                parseClassCont fuel curlyStart fields methods associated
                  (some newC) s2) s
        | .ok (.Keyword .Function) =>
            (PM.bind PM.next fun _ =>
             PM.bind (parseFunctionInner fuel .Normal permissions) fun f =>
             parseClassCont fuel curlyStart fields methods
               (associated ++ [f]) constructor) s
        | .ok (.Keyword .Var) | .ok (.Keyword .Let) =>
            (PM.bind parseVarType fun varType =>
             PM.bind identP fun fieldName =>
             parseClassCont fuel curlyStart
               (fields ++ [(varType, fieldName)]) methods associated
               constructor) s
        | .ok (.Keyword .Mut) =>
            (PM.bind PM.next fun _ =>
             PM.bind (parseFunctionInner fuel .MutableMethod permissions)
               fun m =>
             parseClassCont fuel curlyStart fields (methods ++ [m])
               associated constructor) s
        | .ok (.Ident _) =>
            (PM.bind (parseFunctionInner fuel .Method permissions) fun m =>
             parseClassCont fuel curlyStart fields (methods ++ [m])
               associated constructor) s
        | .ok _ => .err (Error.token s.peekSpan) s
        | .error e =>
            if e.errType = .UnexpectedEOF then
              .err (Error.new ⟨curlyStart, s.peekSpan.stop⟩ .UnclosedCurly) s
            else .err e s

/-- The member-terminator check at the bottom of the class-member loop of
`Parser::parse_class_stmt` (closing brace, line ending, or error). -/
def parseClassCont :
    Nat → Nat → List (Permissions × Symbol) → List Function →
      List Function → Option Function → PM ClassBody
  | 0, _, _, _, _, _ => fun _ => .fuelOut
  | fuel + 1, curlyStart, fields, methods, associated, constructor =>
      fun s =>
        match s.peekE with
        | .ok .CurlyEnd =>
            (PM.bind PM.next fun _ =>
              PM.pure (fields, methods, associated, constructor)) s
        | .ok .Newline | .ok .Semicolon =>
            (PM.bind PM.next fun _ =>
             PM.bind (skipNewline fuel) fun _ =>
             parseClassLoop fuel curlyStart fields methods associated
               constructor) s
        | .ok _ => .err (Error.new s.peekSpan .LineEnding) s
        | .error e =>
            if e.errType = .UnexpectedEOF then
              .err (Error.new ⟨curlyStart, s.peekSpan.stop⟩ .UnclosedCurly) s
            else .err e s

/-- `Parser::parse_set_var_stmt`. -/
def parseSetVarStmt : Nat → PM Stmt
  | 0 => fun _ => .fuelOut
  | fuel + 1 =>
      PM.bind (tryNext (.Keyword .Set)) fun _ => fun s =>
        let start := s.span.start
        (PM.bind identP fun first =>
         PM.bind (setVarDots fuel [first]) fun left =>
         PM.bind (tryNext .Assign) fun _ =>
         PM.bind (parseExpr fuel) fun data => fun s1 =>
           .ok (Stmt.SetVar ⟨start, s1.span.stop⟩ left data) s1) s

/-- `Parser::parse_create_const_stmt`. -/
def parseCreateConstStmt : Nat → PM Stmt
  | 0 => fun _ => .fuelOut
  | fuel + 1 =>
      PM.bind (tryNext (.Keyword .Const)) fun _ => fun s =>
        let start := s.span.start
        (PM.bind identP fun name =>
         PM.bind (tryNext .Assign) fun _ =>
         PM.bind (parseExpr fuel) fun data => fun s1 =>
           .ok (Stmt.CreateConst ⟨start, s1.span.stop⟩ name data) s1) s

/-- `Parser::parse_create_var_stmt`. -/
def parseCreateVarStmt : Nat → PM Stmt
  | 0 => fun _ => .fuelOut
  | fuel + 1 => fun s0 =>
      let start := s0.peekSpan.start
      (PM.bind parseVarType fun varType =>
       PM.bind identP fun name => fun s1 =>
         match s1.peekE with
         | .ok .Assign =>
             (PM.bind PM.next fun _ =>
              PM.bind (parseExpr fuel) fun d => fun s2 =>
                .ok (Stmt.CreateVar ⟨start, s2.span.stop⟩ varType name
                  (some d)) s2) s1
         | _ =>
             .ok (Stmt.CreateVar ⟨start, s1.span.stop⟩ varType name none)
               s1) s0

/-- `Parser::parse_function_stmt`. -/
def parseFunctionStmt : Nat → Permissions → PM Stmt
  | 0, _ => fun _ => .fuelOut
  | fuel + 1, permissions =>
      PM.bind (tryNext (.Keyword .Function)) fun _ => fun s =>
        let start := s.span.start
        (PM.bind (parseFunctionInner fuel .Normal permissions)
          fun func => fun s1 =>
            .ok (Stmt.Function ⟨start, s1.span.stop⟩ func) s1) s

/-- `Parser::parse_function_inner`. -/
def parseFunctionInner : Nat → FunctionType → Permissions → PM Function
  | 0, _, _ => fun _ => .fuelOut
  | fuel + 1, funcType, permissions =>
      PM.bind
        (PM.bind PM.next fun tok => fun s =>
          match tok with
          | .Ident i => .ok i s
          | .Keyword .Constructor => .ok s.constructorSym s
          | _ => .err (Error.ident s.span) s)
        fun name => fun s =>
          let start := s.span.start
          (PM.bind (parseParenList parseFunctionParam fuel)
            fun params => fun s1 =>
              let s2 :=
                if params.length > 255 then
                  s1.pushErr (Error.new s1.span .TooManyParams)
                else s1
              (PM.bind (parseBlock fuel) fun body => fun s3 =>
                let idAndS := s3.getFuncId
                .ok (Function.mk permissions funcType idAndS.1
                    ⟨start, s3.span.stop⟩ name params body) idAndS.2) s2) s

/-- `Parser::parse_block`. -/
def parseBlock : Nat → PM Block
  | 0 => fun _ => .fuelOut
  | fuel + 1 =>
      PM.bind (tryNext .CurlyStart) fun _ => fun s =>
        let start := s.span.start
        (PM.bind (parseBlockLoop fuel start []) fun items => fun s1 =>
          .ok (Block.mk ⟨start, s1.span.stop⟩ items) s1) s

/-- The statement loop of `Parser::parse_block`, with the end-of-input to
unclosed-curly rewriting. -/
def parseBlockLoop : Nat → Nat → List Stmt → PM (List Stmt)
  | 0, _, _ => fun _ => .fuelOut
  | fuel + 1, start, items =>
      PM.bind (skipNewline fuel) fun _ => fun s =>
        match s.peekE with
        | .ok .CurlyEnd => (PM.bind PM.next fun _ => PM.pure items) s
        | .error e =>
            if e.errType = .UnexpectedEOF then
              .err (Error.new ⟨start, s.peekSpan.stop⟩ .UnclosedCurly) s
            else .err e s
        | .ok _ =>
            match parseStmt fuel s with
            | .ok item s1 => parseBlockLoop fuel start (items ++ [item]) s1
            | .err e s1 =>
                if e.errType = .UnexpectedEOF then
                  .err (Error.new ⟨start, s1.peekSpan.stop⟩ .UnclosedCurly)
                    s1
                else .err e s1
            | .panicked => .panicked
            | .fuelOut => .fuelOut

/-- `Parser::parse_expr`. -/
def parseExpr : Nat → PM Expr
  | 0 => fun _ => .fuelOut
  | fuel + 1 =>
      PM.bind
        (PM.bind PM.peek fun t =>
          match t with
          | .Keyword .Copy =>
              PM.bind PM.next fun _ => fun s =>
                let start := s.span.start
                (PM.bind identP fun name => fun s1 =>
                  .ok (Expr.Copy ⟨start, s1.span.stop⟩ name) s1) s
          | .Keyword .Ref =>
              PM.bind PM.next fun _ => fun s =>
                let start := s.span.start
                (PM.bind parseVarType fun varType =>
                 PM.bind identP fun name => fun s1 =>
                   .ok (Expr.Ref ⟨start, s1.span.stop⟩ varType name) s1) s
          | .Not | .Sub => parseUnaryOpExpr fuel
          | _ => parseBinOpExpr fuel)
        fun left => parseTailExpr fuel left

/-- `Parser::parse_tail_expr` (the whole function is one loop over index,
field, call and newline-then-dot continuations). -/
def parseTailExpr : Nat → Expr → PM Expr
  | 0, _ => fun _ => .fuelOut
  | fuel + 1, left => fun s =>
      match s.peekE with
      | .ok .SquareStart =>
          (PM.bind PM.next fun _ => fun s1 =>
            let start := s1.span.start
            (PM.bind (skipNewline fuel) fun _ => fun s2 =>
              match parseExpr fuel s2 with
              | .err e s3 =>
                  if e.errType = .UnexpectedEOF then
                    .err (Error.new ⟨start, s3.peekSpan.stop⟩
                      .UnclosedSquare) s3
                  else .err e s3
              | .panicked => .panicked
              | .fuelOut => .fuelOut
              | .ok right s3 =>
                  (PM.bind (skipNewline fuel) fun _ => fun s4 =>
                    match PState.nextT s4 with
                    | (.ok .SquareEnd, s5) =>
                        parseTailExpr fuel
                          (Expr.Index ⟨start, s5.span.stop⟩ left right) s5
                    | (.ok _, s5) => .err (Error.token s5.span) s5
                    | (.error e, s5) =>
                        if e.errType = .UnexpectedEOF then
                          .err (Error.new ⟨start, s5.peekSpan.stop⟩
                            .UnclosedSquare) s5
                        else .err e s5) s3) s1) s
      | .ok .Dot =>
          (PM.bind PM.next fun _ => fun s1 =>
            let start := s1.span.start
            (PM.bind identP fun name => fun s2 =>
              parseTailExpr fuel
                (Expr.Field ⟨start, s2.span.stop⟩ left name) s2) s1) s
      | .ok .ParenStart =>
          let start := s.peekSpan.start
          (PM.bind (parseParenList (parseExpr fuel) fuel)
            fun items => fun s1 =>
              let s2 :=
                if items.length > 255 then
                  s1.pushErr (Error.new s1.span .TooManyArgs)
                else s1
              let endPos := s2.span.stop
              let newLeft :=
                match left with
                | .Field span l sym =>
                    Expr.MethodCall ⟨span.start, endPos⟩ sym (l :: items)
                | .Named span name =>
                    Expr.AssociatedCall ⟨span.start, endPos⟩ name items
                | d => Expr.Call ⟨start, endPos⟩ (d :: items)
              parseTailExpr fuel newLeft s2) s
      | .ok .Newline =>
          (match s.peek1E with
           | .ok .Dot => (PM.bind PM.next fun _ => parseTailExpr fuel left) s
           | _ => .ok left s)
      | _ => .ok left s

/-- `Parser::parse_bin_op_expr`. -/
def parseBinOpExpr : Nat → PM Expr
  | 0 => fun _ => .fuelOut
  | fuel + 1 => fun s0 =>
      let start := s0.peekSpan.start
      (PM.bind (parseParenExpr fuel) fun left =>
       PM.bind PM.peek fun t =>
       PM.bind
         (match t with
          | .Newline => parseBinOp true
          | _ => parseBinOp false)
         fun opOpt =>
           match opOpt with
           | none => PM.pure left
           | some op =>
               PM.bind (skipNewline fuel) fun _ =>
               PM.bind (parseParenExpr fuel) fun right => fun s1 =>
                 .ok (Expr.BinaryOp ⟨start, s1.span.stop⟩ op left right)
                   s1) s0

/-- `Parser::parse_unary_op_expr`. -/
def parseUnaryOpExpr : Nat → PM Expr
  | 0 => fun _ => .fuelOut
  | fuel + 1 =>
      PM.bind PM.next fun t => fun s =>
        match t with
        | .Sub =>
            let start := s.span.start
            (PM.bind (parseParenExpr fuel) fun e => fun s1 =>
              .ok (Expr.UnaryOp ⟨start, s1.span.stop⟩ .Negate e) s1) s
        | .Not =>
            let start := s.span.start
            (PM.bind (parseParenExpr fuel) fun e => fun s1 =>
              .ok (Expr.UnaryOp ⟨start, s1.span.stop⟩ .Not e) s1) s
        | _ => .err (Error.token s.span) s

/-- `Parser::parse_paren_expr`. -/
def parseParenExpr : Nat → PM Expr
  | 0 => fun _ => .fuelOut
  | fuel + 1 =>
      PM.bind
        (PM.bind PM.peek fun t =>
          match t with
          | .ParenStart =>
              PM.bind PM.next fun _ => fun s =>
                let start := s.span.start
                (match parseExpr fuel s with
                 | .err e s2 =>
                     if e.errType = .UnexpectedEOF then
                       .err (Error.new ⟨start, s2.peekSpan.stop⟩
                         .UnclosedParen) s2
                     else .err e s2
                 | .panicked => .panicked
                 | .fuelOut => .fuelOut
                 | .ok expr s2 =>
                     match tryNext .ParenEnd s2 with
                     | .err _ s3 =>
                         .err (Error.new ⟨start, s3.peekSpan.stop⟩
                           .UnclosedParen) s3
                     | .ok _ s3 => .ok expr s3
                     | .panicked => .panicked
                     | .fuelOut => .fuelOut)
          | _ => parseLiteralExpr fuel)
        fun left => parseTailExpr fuel left

/-- `Parser::parse_literal_expr`. -/
def parseLiteralExpr : Nat → PM Expr
  | 0 => fun _ => .fuelOut
  | fuel + 1 => fun s0 =>
      let start := s0.peekSpan
      match PState.nextT s0 with
      | (.error e, s1) => .err e s1
      | (.ok t, s1) =>
          match t with
          | .Ident i =>
              (match s1.peekE with
               | .ok .ColonColon =>
                   (PM.bind PM.next fun _ =>
                    PM.bind identP fun right => fun s2 =>
                      .ok (Expr.AssociatedValue ⟨start.start, s2.span.stop⟩
                        i right) s2) s1
               | _ => .ok (Expr.Named start i) s1)
          | .Integer i => .ok (Expr.Integer start i) s1
          | .Float f => .ok (Expr.Float start f) s1
          | .String str => .ok (Expr.String start str) s1
          | .Keyword .True => .ok (Expr.Bool start true) s1
          | .Keyword .False => .ok (Expr.Bool start false) s1
          | .CurlyStart => parseObjectLoop fuel s1.span.start [] s1
          | .SquareStart => parseListLoop fuel s1.span.start [] s1
          | _ => .err (Error.token s1.span) s1

/-- The keyed-object loop of `Parser::parse_literal_expr`
(`Token::CurlyStart` arm). -/
def parseObjectLoop :
    Nat → Nat → List (Span × Symbol × Expr) → PM Expr
  | 0, _, _ => fun _ => .fuelOut
  | fuel + 1, start, items =>
      PM.bind (skipNewline fuel) fun _ => fun s =>
        match s.peekE with
        | .ok .CurlyEnd =>
            (PM.bind PM.next fun _ => fun s1 =>
              .ok (Expr.Object ⟨start, s1.span.stop⟩ items) s1) s
        | .error e =>
            if e.errType = .UnexpectedEOF then
              .err (Error.new ⟨start, s.peekSpan.stop⟩ .UnclosedCurly) s
            else .err e s
        | .ok _ =>
            (PM.bind identP fun name => fun s1 =>
              let nameSpan := s1.span
              (PM.bind (tryNext .Colon) fun _ => fun s2 =>
                match parseExpr fuel s2 with
                | .err e s3 =>
                    if e.errType = .UnexpectedEOF then
                      .err (Error.new ⟨start, s3.peekSpan.stop⟩
                        .UnclosedCurly) s3
                    else .err e s3
                | .panicked => .panicked
                | .fuelOut => .fuelOut
                | .ok expr s3 =>
                    (PM.bind (skipNewline fuel) fun _ => fun s4 =>
                      match PState.nextT s4 with
                      | (.ok .CurlyEnd, s5) =>
                          .ok (Expr.Object ⟨start, s5.span.stop⟩
                            (items ++ [(nameSpan, name, expr)])) s5
                      | (.ok .Comma, s5) =>
                          parseObjectLoop fuel start
                            (items ++ [(nameSpan, name, expr)]) s5
                      | (.ok _, s5) => .err (Error.token s5.span) s5
                      | (.error e, s5) =>
                          if e.errType = .UnexpectedEOF then
                            .err (Error.new ⟨start, s5.peekSpan.stop⟩
                              .UnclosedCurly) s5
                          else .err e s5) s3) s1) s

/-- The list-literal loop of `Parser::parse_literal_expr`
(`Token::SquareStart` arm). -/
def parseListLoop : Nat → Nat → List Expr → PM Expr
  | 0, _, _ => fun _ => .fuelOut
  | fuel + 1, start, items =>
      PM.bind (skipNewline fuel) fun _ => fun s =>
        match s.peekE with
        | .ok .SquareEnd =>
            (PM.bind PM.next fun _ => fun s1 =>
              .ok (Expr.List ⟨start, s1.span.stop⟩ items) s1) s
        | .error e =>
            if e.errType = .UnexpectedEOF then
              .err (Error.new ⟨start, s.peekSpan.stop⟩ .UnclosedSquare) s
            else .err e s
        | .ok _ =>
            match parseExpr fuel s with
            | .err e s1 =>
                if e.errType = .UnexpectedEOF then
                  .err (Error.new ⟨start, s1.peekSpan.stop⟩ .UnclosedSquare)
                    s1
                else .err e s1
            | .panicked => .panicked
            | .fuelOut => .fuelOut
            | .ok e s1 =>
                (PM.bind (skipNewline fuel) fun _ => fun s2 =>
                  match PState.nextT s2 with
                  | (.ok .SquareEnd, s3) =>
                      .ok (Expr.List ⟨start, s3.span.stop⟩ (items ++ [e]))
                        s3
                  | (.ok .Comma, s3) =>
                      parseListLoop fuel start (items ++ [e]) s3
                  | (.ok _, s3) => .err (Error.token s3.span) s3
                  | (.error e2, s3) =>
                      if e2.errType = .UnexpectedEOF then
                        .err (Error.new ⟨start, s3.peekSpan.stop⟩
                          .UnclosedSquare) s3
                      else .err e2 s3) s1

end

/-- The statement loop of `Parser::parse_file`. -/
def parseFileLoop : Nat → List Stmt → PM (List Stmt)
  | 0, _ => fun _ => .fuelOut
  | fuel + 1, items => fun s =>
      if s.atEof then .ok items s
      else
        (PM.bind (parseStmt fuel) fun st =>
         PM.bind (skipNewline fuel) fun _ =>
         parseFileLoop fuel (items ++ [st])) s

/-- `Parser::parse_file`. -/
def parseFile : Nat → PM (List Stmt)
  | 0 => fun _ => .fuelOut
  | fuel + 1 =>
      PM.bind (skipNewline fuel) fun _ => parseFileLoop fuel []

/-- `Parser::new`: empty lookahead and zero spans, then two `next` calls to
fill the lookahead window.  `toks` is the lexer's `(item, span)` output,
`sourceLen` the length of the source buffer, `csym` the interned symbol of
`"constructor"`. -/
def mkParser (toks : List (LexItem × Span)) (sourceLen : Nat)
    (csym : Symbol) : PState :=
  let s0 : PState :=
    { rest := toks, la0 := none, la1 := none,
      s0 := ⟨0, 0⟩, s1 := ⟨0, 0⟩, s2 := ⟨0, 0⟩,
      sourceLen := sourceLen, nonFatal := [],
      funcCount := 0, classCount := 0, constructorSym := csym }
  (PState.nextT (PState.nextT s0).2).2

/-- Convenience constructor for a concrete stream element. -/
def tk (t : Token) (a b : Nat) : LexItem × Span := (.tok t, ⟨a, b⟩)

/-- Token stream of a class with two constructor definitions,
`class C { constructor(){} ⏎ constructor(){} }` (identifier `C` interned
as `1`, `"constructor"` as `99`). -/
def dupCtorToks : List (LexItem × Span) :=
  [tk (.Keyword .Class) 0 5, tk (.Ident 1) 6 7, tk .CurlyStart 8 9,
   tk (.Keyword .Constructor) 10 21, tk .ParenStart 21 22,
   tk .ParenEnd 22 23, tk .CurlyStart 24 25, tk .CurlyEnd 25 26,
   tk .Newline 26 27, tk (.Keyword .Constructor) 28 39,
   tk .ParenStart 39 40, tk .ParenEnd 40 41, tk .CurlyStart 42 43,
   tk .CurlyEnd 43 44, tk .CurlyEnd 45 46]

/-! The standalone precedence-climbing expression parser of
`src/test_lang/src/parser/expr.rs` (`ExprParser`), which borrows the same
cursor state. -/

/-- `ExprItem` from `expr.rs`. -/
inductive ExprItem where
  | Expr (e : Expr)
  | Integer (sp : Span) (i : Int)
  | Float (sp : Span) (f : F64)
  | String (sp : Span) (s : String)
  | Ident (sp : Span) (i : Symbol)

/-- `ExprItem::to_expr`. -/
def ExprItem.to_expr : ExprItem → TestLang.Expr
  | .Expr e => e
  | .Integer sp i => Expr.Integer sp i
  | .Float sp f => Expr.Float sp f
  | .String sp s => Expr.String sp s
  | .Ident sp i => Expr.Named sp i

/-- `Associvity` from `expr.rs` (the source's spelling). -/
inductive Associvity where
  | Left | Right | Paren
deriving DecidableEq

/-- `OpType` from `expr.rs`; the source's variant names are words reserved
in this development, so they carry an `Op` suffix here. -/
inductive OpType where
  | InfixOp | PrefixOp | PostfixOp
deriving DecidableEq

/-- `Operator` from `expr.rs`. -/
inductive Operator where
  | Add | Sub | Mul | Div | Mod
  | LogicAnd | LogicOr
  | Equal | NotEqual | Greater | Less | GreaterEqual | LessEqual
  | Negate | Not
  | Index | IndexEnd | Field | Call | CallEnd | Comma
deriving DecidableEq

namespace Operator

/-- `Operator::as_binary_op`; `none` models the `panic!("Not allowed")`
arm. -/
def as_binary_op : Operator → Option BinaryOp
  | .Add => some .Add
  | .Sub => some .Sub
  | .Mul => some .Mul
  | .Div => some .Div
  | .Mod => some .Mod
  | .LogicAnd => some .LogicAnd
  | .LogicOr => some .LogicOr
  | .Equal => some .Equal
  | .NotEqual => some .NotEqual
  | .Greater => some .Greater
  | .Less => some .Less
  | .GreaterEqual => some .GreaterEqual
  | .LessEqual => some .LessEqual
  | _ => none

/-- `Operator::as_unary_op`; `none` models the `panic!("Not allowed")`
arm. -/
def as_unary_op : Operator → Option UnaryOp
  | .Negate => some .Negate
  | .Not => some .Not
  | _ => none

/-- `Operator::operator_type`. -/
def operator_type : Operator → OpType
  | .Add | .Sub | .Mul | .Div | .Mod | .LogicAnd | .LogicOr
  | .Equal | .NotEqual | .Greater | .Less | .GreaterEqual
  | .LessEqual => .InfixOp
  | .Negate | .Not => .PrefixOp
  | .Index | .IndexEnd | .Field | .Call | .CallEnd | .Comma => .PostfixOp

/-- `Operator::associvity`. -/
def associvity : Operator → Associvity
  | .Add | .Sub | .Mul | .Div | .Mod | .LogicAnd | .LogicOr
  | .Index | .IndexEnd | .Field | .Call | .CallEnd | .Comma => .Left
  | .Negate | .Not => .Right
  | .Equal | .NotEqual | .Greater | .Less | .GreaterEqual
  | .LessEqual => .Paren

/-- `Operator::base_prec`. -/
def base_prec : Operator → Nat
  | .CallEnd | .IndexEnd | .Comma => 0
  | .LogicOr => 2
  | .LogicAnd => 4
  | .Equal | .NotEqual | .Greater | .Less | .GreaterEqual
  | .LessEqual => 6
  | .Add | .Sub => 8
  | .Mul | .Div | .Mod => 10
  | .Negate | .Not => 12
  | .Index | .Field | .Call => 14

/-- `Operator::l_prec`. -/
def l_prec (op : Operator) : Option Nat :=
  let base := op.base_prec
  match op.associvity with
  | .Left => some base
  | .Right => some (base + 1)
  | .Paren => none

/-- `Operator::r_prec`. -/
def r_prec (op : Operator) : Option Nat :=
  let base := op.base_prec
  match op.associvity with
  | .Left => some (base + 1)
  | .Right => some base
  | .Paren => none

end Operator

/-- `ExprParser::peek_operator` (a pure read of the lookahead). -/
def peekOperator (s : PState) : Option Operator :=
  match s.peekE with
  | .ok .Add => some .Add
  | .ok .Sub => some .Sub
  | .ok .Mul => some .Mul
  | .ok .Div => some .Div
  | .ok .Mod => some .Mod
  | .ok .Equal => some .Equal
  | .ok .NotEqual => some .NotEqual
  | .ok .Greater => some .Greater
  | .ok .Less => some .Less
  | .ok .GreaterEqual => some .GreaterEqual
  | .ok .LessEqual => some .LessEqual
  | .ok (.Keyword .And) => some .LogicAnd
  | .ok (.Keyword .Or) => some .LogicOr
  | .ok .SquareStart => some .Index
  | .ok .Dot => some .Field
  | .ok .ParenStart => some .Call
  | .ok .ParenEnd => some .CallEnd
  | .ok .SquareEnd => some .IndexEnd
  | .ok .Comma => some .Comma
  | _ => none

/-- `ExprParser::parse_literal`. -/
def exprParseLiteral : PM ExprItem :=
  PM.bind PM.next fun t => fun s =>
    match t with
    | .Integer i => .ok (ExprItem.Integer s.span i) s
    | .Float f => .ok (ExprItem.Float s.span f) s
    | .String str => .ok (ExprItem.String s.span str) s
    | .Ident i => .ok (ExprItem.Ident s.span i) s
    | _ => .err (Error.token s.span) s

/-- `ExprParser::convert_to_bin_expr`; `none` models the panic inside
`as_binary_op`. -/
def convert_to_bin_expr (left : ExprItem) (op : Operator)
    (right : ExprItem) : Option ExprItem :=
  let l := left.to_expr
  let r := right.to_expr
  op.as_binary_op.map fun b =>
    ExprItem.Expr (Expr.BinaryOp ⟨l.span.start, r.span.stop⟩ b l r)

mutual

/-- `ExprParser::parse_inner`: one primary or prefix operand, then the
operator loop (`exprLoop`). -/
def exprParseInner : Nat → Nat → PM ExprItem
  | 0, _ => fun _ => .fuelOut
  | fuel + 1, minPrec =>
      PM.bind
        (fun s =>
          match s.peekE with
          | .ok (.Integer _) | .ok (.Float _) | .ok (.Ident _) =>
              exprParseLiteral s
          | .ok .Sub | .ok .Not =>
              (PM.bind PM.next fun t => fun s1 =>
                let opOpt :=
                  match t with
                  | .Sub => some Operator.Negate
                  | .Not => some Operator.Not
                  | _ => none
                match opOpt with
                | none => .panicked
                | some op =>
                    let start := s1.span.start
                    match op.r_prec with
                    | none => .panicked
                    | some rp =>
                        (PM.bind (exprParseInner fuel rp) fun rhs =>
                          fun s2 =>
                            match op.as_unary_op with
                            | none => .panicked
                            | some uop =>
                                .ok (ExprItem.Expr (Expr.UnaryOp
                                  ⟨start, s2.span.stop⟩ uop rhs.to_expr))
                                  s2) s1) s
          | .ok .ParenStart =>
              (PM.bind PM.next fun _ =>
               PM.bind (exprParseInner fuel 2) fun l =>
               PM.bind (tryNext .ParenEnd) fun _ =>
               PM.pure l) s
          | _ => .err (Error.token s.span) s)
        fun left => exprLoop fuel minPrec left

/-- The operator loop of `ExprParser::parse_inner`; `POut.panicked` models
the `todo!("Paren associvity")` and `unreachable!()` arms. -/
def exprLoop : Nat → Nat → ExprItem → PM ExprItem
  | 0, _, _ => fun _ => .fuelOut
  | fuel + 1, minPrec, left => fun s =>
      match peekOperator s with
      | none => .ok left s
      | some operator =>
          match operator.l_prec with
          | none => .panicked
          | some lp =>
              if lp < minPrec then .ok left s
              else
                (PM.bind PM.next fun _ => fun s1 =>
                  match operator.operator_type with
                  | .InfixOp =>
                      (match operator.r_prec with
                       | none => .panicked
                       | some rp =>
                           (PM.bind (skipNewline fuel) fun _ =>
                            PM.bind (exprParseInner fuel rp) fun right =>
                              fun s2 =>
                                match convert_to_bin_expr left operator
                                    right with
                                | none => .panicked
                                | some l2 => exprLoop fuel minPrec l2 s2)
                             s1)
                  | .PostfixOp =>
                      (match operator with
                       | .Field =>
                           (PM.bind identP fun name => fun s2 =>
                             exprLoop fuel minPrec (ExprItem.Expr
                               (Expr.Field s2.span left.to_expr name)) s2)
                             s1
                       | .Index =>
                           let start := s1.span.start
                           (PM.bind (exprParseInner fuel 2) fun e =>
                            PM.bind (tryNext .SquareEnd) fun _ => fun s2 =>
                              exprLoop fuel minPrec (ExprItem.Expr
                                (Expr.Index ⟨start, s2.span.stop⟩
                                  left.to_expr e.to_expr)) s2) s1
                       | .Call =>
                           let start := s1.span.start
                           (PM.bind (exprCallArgs fuel [left.to_expr])
                             fun items => fun s2 =>
                               exprLoop fuel minPrec (ExprItem.Expr
                                 (Expr.Call ⟨start, s2.span.stop⟩ items))
                                 s2) s1
                       | _ => .panicked)
                  | .PrefixOp => .panicked) s

/-- The argument loop of the `Operator::Call` arm of
`ExprParser::parse_inner`. -/
def exprCallArgs : Nat → List Expr → PM (List Expr)
  | 0, _ => fun _ => .fuelOut
  | fuel + 1, items => fun s =>
      match s.peekE with
      | .error e => .err e s
      | .ok .ParenEnd => (PM.bind PM.next fun _ => PM.pure items) s
      | .ok _ =>
          (PM.bind (exprParseInner fuel 2) fun item =>
           PM.bind PM.next fun t => fun s2 =>
             match t with
             | .Comma => exprCallArgs fuel (items ++ [item.to_expr]) s2
             | .ParenEnd => .ok (items ++ [item.to_expr]) s2
             | _ => .err (Error.token s2.span) s2) s

end

/-- `ExprParser::parse`. -/
def exprParse (fuel : Nat) : PM Expr :=
  PM.bind (exprParseInner fuel 2) fun item => PM.pure item.to_expr

/-! Observations on parse outcomes, used to state the theorems below. -/

/-- The parsed value of a successful run. -/
def POut.result {α : Type} : POut α → Option α
  | .ok a _ => some a
  | _ => none

/-- The fatal diagnostic of a failed run. -/
def POut.fatal {α : Type} : POut α → Option Error
  | .err e _ => some e
  | _ => none

/-- The non-fatal accumulator after a completed (successful or fatally
failed) run. -/
def POut.accum {α : Type} : POut α → Option (List Error)
  | .ok _ s => some s.nonFatal
  | .err _ s => some s.nonFatal
  | _ => none


/-- Whether a run ended in a Rust panic. -/
def POut.isPanic {α : Type} : POut α → Bool
  | .panicked => true
  | _ => false

/-! Theorems about the claims.  Parse results are pinned by pattern
matching against fully literal expected trees (every span, operator,
symbol and payload in the pattern is a literal), which keeps the
statements kernel-decidable. -/

/-- Claim C1: for the token stream `1 + 2 * 3` the precedence-climbing
expression parser succeeds and returns `Add(1, Mul(2, 3))`, and on the
mirrored stream `1 * 2 + 3` it returns `Add(Mul(1, 2), 3)`: multiplication
binds tighter than addition on either side of it. -/
theorem C1_mul_binds_tighter :
    (match (exprParse 30 (mkParser [tk (.Integer 1) 0 1, tk .Add 1 2,
        tk (.Integer 2) 2 3, tk .Mul 3 4, tk (.Integer 3) 4 5] 5 100)).result
     with
     | some (.BinaryOp ⟨0, 5⟩ .Add (.Integer ⟨0, 1⟩ (.ofNat 1))
         (.BinaryOp ⟨2, 5⟩ .Mul (.Integer ⟨2, 3⟩ (.ofNat 2))
           (.Integer ⟨4, 5⟩ (.ofNat 3)))) => true
     | _ => false) = true
    ∧ (match (exprParse 30 (mkParser [tk (.Integer 1) 0 1, tk .Mul 1 2,
        tk (.Integer 2) 2 3, tk .Add 3 4, tk (.Integer 3) 4 5] 5 100)).result
     with
     | some (.BinaryOp ⟨0, 5⟩ .Add
         (.BinaryOp ⟨0, 3⟩ .Mul (.Integer ⟨0, 1⟩ (.ofNat 1))
           (.Integer ⟨2, 3⟩ (.ofNat 2)))
         (.Integer ⟨4, 5⟩ (.ofNat 3))) => true
     | _ => false) = true := by
  decide!

/-- Claim C2: a call's node shape depends only on the left operand's
syntactic shape.  Concretely `x.f(y)` (symbols 1, 2, 3) parses to a method
call with receiver `x` inserted as first argument and method name `f` —
not to a call of a field-access expression; and for an arbitrary
already-parsed left operand, the tail parser facing `(y)` builds a method
call when the left operand is a field access, an associated call when it
is a bare name, and a plain call otherwise. -/
theorem C2_call_shape (y : Symbol) (left : Expr) :
    (match (parseExpr 30 (mkParser [tk (.Ident 1) 0 1, tk .Dot 1 2,
        tk (.Ident 2) 2 3, tk .ParenStart 3 4, tk (.Ident 3) 4 5,
        tk .ParenEnd 5 6, tk .Newline 6 7] 7 100)).result with
     | some (.MethodCall ⟨1, 6⟩ 2 [.Named ⟨0, 1⟩ 1, .Named ⟨4, 5⟩ 3]) =>
         true
     | _ => false) = true
    ∧ (parseTailExpr 30 left (mkParser [tk .ParenStart 0 1,
        tk (.Ident y) 1 2, tk .ParenEnd 2 3, tk .Newline 3 4] 4 100)).result
      = some (match left with
          | .Field sp l sym =>
              Expr.MethodCall ⟨sp.start, 3⟩ sym (l :: [Expr.Named ⟨1, 2⟩ y])
          | .Named sp n =>
              Expr.AssociatedCall ⟨sp.start, 3⟩ n [Expr.Named ⟨1, 2⟩ y]
          | d => Expr.Call ⟨0, 3⟩ (d :: [Expr.Named ⟨1, 2⟩ y])) := by
  refine ⟨by decide!, ?_⟩
  cases left <;> rfl

/-- Claim C3: a line break does end the expression when the token after it
is not a continuing operator (`a` ↵ `b` parses as two expression
statements), but when an infix operator follows the break the parser
consumes only the break and then fails fatally with an unexpected-token
error at the operator: `a` ↵ `+` `b` is not parsed as `Add(a, b)` (symbols
1, 2). -/
theorem C3_newline_then_operator :
    (match (parseFile 30 (mkParser [tk (.Ident 1) 0 1, tk .Newline 1 2,
        tk (.Ident 2) 2 3, tk .Newline 3 4] 4 100)).result with
     | some [.Expression ⟨0, 1⟩ (.Named ⟨0, 1⟩ 1),
         .Expression ⟨2, 3⟩ (.Named ⟨2, 3⟩ 2)] => true
     | _ => false) = true
    ∧ (parseFile 30 (mkParser [tk (.Ident 1) 0 1, tk .Newline 1 2,
        tk .Add 2 3, tk (.Ident 2) 3 4] 4 100)).fatal
      = some (Error.new ⟨2, 3⟩ .UnexpectedToken) := by
  decide!

/-- Claim C4 (counterexample): `x.f` (symbols 1, 2) parses to a
field-access node whose span `1..3` starts at the dot token, so the node's
span does not contain the left operand's span `0..1`: its start is not ≤
the child's start. -/
theorem C4_cex_field_span :
    (match (parseExpr 30 (mkParser [tk (.Ident 1) 0 1, tk .Dot 1 2,
        tk (.Ident 2) 2 3, tk .Newline 3 4] 4 100)).result with
     | some (.Field ⟨1, 3⟩ (.Named ⟨0, 1⟩ 1) 2) => true
     | _ => false) = true
    ∧ ¬ ((Expr.Field ⟨1, 3⟩ (Expr.Named ⟨0, 1⟩ 1) 2).span.start
          ≤ (Expr.Named ⟨0, 1⟩ 1).span.start) := by
  exact ⟨by decide!, by decide⟩

/-- Claim C4 (amended): a binary-operation node's span runs from the first
to the last consumed token and so contains both children, but a
field-access node built by the tail loop spans only from the `.` token to
the member name, so it need not contain its left operand (for arbitrary
token spans and payloads). -/
theorem C4_amended_tail_spans (x f : Symbol) (i j : Int)
    (sp1 sp2 sp3 sp4 : Span) :
    (parseExpr 30 (mkParser [(LexItem.tok (.Ident x), sp1),
        (LexItem.tok .Dot, sp2), (LexItem.tok (.Ident f), sp3),
        (LexItem.tok .Newline, sp4)] 9 100)).result
      = some (Expr.Field ⟨sp2.start, sp3.stop⟩ (Expr.Named sp1 x) f)
    ∧ (parseExpr 30 (mkParser [(LexItem.tok (.Integer i), sp1),
        (LexItem.tok .Add, sp2), (LexItem.tok (.Integer j), sp3),
        (LexItem.tok .Newline, sp4)] 9 100)).result
      = some (Expr.BinaryOp ⟨sp1.start, sp3.stop⟩ .Add
          (Expr.Integer sp1 i) (Expr.Integer sp3 j)) :=
  ⟨rfl, rfl⟩

/-- Claim C5: for the token stream `-a + b` (symbols 1, 2) the
precedence-climbing expression parser returns `Add(Negate(a), b)`: the
unary node wraps only the immediate operand and becomes the left side of
the addition. -/
theorem C5_unary_binds_tighter :
    (match (exprParse 30 (mkParser [tk .Sub 0 1, tk (.Ident 1) 1 2,
        tk .Add 2 3, tk (.Ident 2) 3 4] 4 100)).result with
     | some (.BinaryOp ⟨0, 4⟩ .Add
         (.UnaryOp ⟨0, 2⟩ .Negate (.Named ⟨1, 2⟩ 1))
         (.Named ⟨3, 4⟩ 2)) => true
     | _ => false) = true := by
  decide!

/-- Claim C6: a file whose statement is the unparenthesized comparison
chain `a < b < c` (symbols 1, 2, 3) is rejected — no successful parse, and
the fatal diagnostic is a missing-line-ending error at the second `<` —
while the parenthesized `(a < b) < c` parses successfully. -/
theorem C6_comparison_nonassociative :
    (match (parseFile 30 (mkParser [tk (.Ident 1) 0 1, tk .Less 1 2,
        tk (.Ident 2) 2 3, tk .Less 3 4, tk (.Ident 3) 4 5,
        tk .Newline 5 6] 6 100)).result with
     | none => true
     | some _ => false) = true
    ∧ (parseFile 30 (mkParser [tk (.Ident 1) 0 1, tk .Less 1 2,
        tk (.Ident 2) 2 3, tk .Less 3 4, tk (.Ident 3) 4 5,
        tk .Newline 5 6] 6 100)).fatal
      = some (Error.new ⟨3, 4⟩ .LineEnding)
    ∧ (match (parseFile 40 (mkParser [tk .ParenStart 0 1, tk (.Ident 1) 1 2,
        tk .Less 2 3, tk (.Ident 2) 3 4, tk .ParenEnd 4 5, tk .Less 5 6,
        tk (.Ident 3) 6 7, tk .Newline 7 8] 8 100)).result with
     | some [.Expression ⟨0, 7⟩ (.BinaryOp ⟨0, 7⟩ .Less
         (.BinaryOp ⟨1, 4⟩ .Less (.Named ⟨1, 2⟩ 1) (.Named ⟨3, 4⟩ 2))
         (.Named ⟨6, 7⟩ 3))] => true
     | _ => false) = true := by
  decide!

/-- Claim C7 (counterexample): end of input reached inside a
parenthesized expression need not produce an unclosed-parenthesis
diagnostic.  For `( ref` followed by end of input, `parse_var_type`
replaces the end-of-input error of its `next` call with a generic
unexpected-token error before `parse_paren_expr` can inspect it, so the
parse fails fatally with `UnexpectedToken` (at the end-of-input span
`5..5`) and with no `UnclosedParen` diagnostic. -/
theorem C7_cex_ref_eof :
    (parseFile 30 (mkParser [tk .ParenStart 0 1,
        tk (.Keyword .Ref) 2 5] 5 100)).fatal
      = some (Error.new ⟨5, 5⟩ .UnexpectedToken)
    ∧ ¬ ((parseFile 30 (mkParser [tk .ParenStart 0 1,
        tk (.Keyword .Ref) 2 5] 5 100)).fatal.map Error.errType
          = some ErrorType.UnclosedParen) := by
  exact ⟨by decide!, by decide!⟩

/-- Claim C8: `class C { let x }` (one field, no constructor; symbols 1,
2) parses successfully to a class node and records exactly one non-fatal
constructor-required diagnostic whose span `0..17` covers the whole class;
`class C { }` with no fields records no diagnostic. -/
theorem C8_constructor_required :
    (match (parseFile 40 (mkParser [tk (.Keyword .Class) 0 5,
        tk (.Ident 1) 6 7, tk .CurlyStart 8 9, tk (.Keyword .Let) 10 13,
        tk (.Ident 2) 14 15, tk .CurlyEnd 16 17] 17 100)).result with
     | some [.Class ⟨0, 17⟩ 0 0 1 none [(32, 2)] [] []] => true
     | _ => false) = true
    ∧ (parseFile 40 (mkParser [tk (.Keyword .Class) 0 5,
        tk (.Ident 1) 6 7, tk .CurlyStart 8 9, tk (.Keyword .Let) 10 13,
        tk (.Ident 2) 14 15, tk .CurlyEnd 16 17] 17 100)).accum
      = some [Error.new ⟨0, 17⟩ .ConstructorRequired]
    ∧ (match (parseFile 40 (mkParser [tk (.Keyword .Class) 0 5,
        tk (.Ident 1) 6 7, tk .CurlyStart 8 9,
        tk .CurlyEnd 10 11] 11 100)).result with
     | some [.Class ⟨0, 11⟩ 0 0 1 none [] [] []] => true
     | _ => false) = true
    ∧ (parseFile 40 (mkParser [tk (.Keyword .Class) 0 5,
        tk (.Ident 1) 6 7, tk .CurlyStart 8 9,
        tk .CurlyEnd 10 11] 11 100)).accum = some [] := by
  decide!

/-- Claim C10 (counterexample): the standalone expression parser panics —
it hits the `todo!("Paren associvity")` branch — on the token stream
`a < b` (symbols 0, 1), so the `todo!` branches are reachable and the
parser does not return Ok-or-Err on every input. -/
theorem C10_cex_comparison_panics :
    POut.isPanic (exprParse 30 (mkParser [tk (.Ident 0) 0 1, tk .Less 1 2,
      tk (.Ident 1) 2 3] 3 100)) = true := by
  decide!

/-! No-panic analysis of the standalone expression parser (claim C10):
on streams with no comparison-operator token, no `todo!` / `panic!` /
`unreachable!` / `unwrap` site is reachable. -/

/-- Comparison-operator tokens: exactly the tokens that `peek_operator`
maps to operators of the non-associative `Paren` associativity. -/
def Token.isCmp : Token → Bool
  | .Equal | .NotEqual | .Greater | .Less | .GreaterEqual
  | .LessEqual => true
  | _ => false

/-- A lexer item that is not a comparison-operator token. -/
def lexOk : LexItem → Bool
  | .tok t => !t.isCmp
  | .lexErr => true

/-- The cursor holds no comparison-operator token anywhere: neither in the
two lookahead slots nor in the unread stream. -/
def NoCmpState (s : PState) : Prop :=
  (∀ li ∈ s.la0, lexOk li = true) ∧ (∀ li ∈ s.la1, lexOk li = true) ∧
    ∀ p ∈ s.rest, lexOk p.1 = true

/-- A run outcome whose final state satisfies `P`; a panic outcome is
acceptable exactly when `panicOK` holds. -/
def OutPred {α : Type} (P : PState → Prop) (panicOK : Prop) :
    POut α → Prop
  | .ok _ s' => P s'
  | .err _ s' => P s'
  | .panicked => panicOK
  | .fuelOut => True

theorem outPred_bind {α β : Type} {P : PState → Prop} {pOK : Prop}
    {m : PM α} {f : α → PM β} {s : PState}
    (h1 : OutPred P pOK (m s))
    (h2 : ∀ a s', P s' → OutPred P pOK (f a s')) :
    OutPred P pOK (PM.bind m f s) := by
  unfold PM.bind
  cases hm : m s with
  | ok a s' => rw [hm] at h1; exact h2 a s' h1
  | err e s' => rw [hm] at h1; exact h1
  | panicked => rw [hm] at h1; exact h1
  | fuelOut => exact trivial

theorem noCmp_nextT {s : PState} (h : NoCmpState s) :
    NoCmpState (PState.nextT s).2 := by
  obtain ⟨h0, h1, hr⟩ := h
  unfold PState.nextT PState.nextRet
  cases hrest : s.rest with
  | nil =>
      cases s.la0 with
      | none => exact ⟨h1, by simp, by rw [hrest] at hr; exact hr⟩
      | some li =>
          cases li <;>
            exact ⟨h1, by simp, by rw [hrest] at hr; exact hr⟩
  | cons hd tl =>
      obtain ⟨lt, sp⟩ := hd
      have hlt : lexOk lt = true := hr (lt, sp) (by rw [hrest]; simp)
      have htl : ∀ p ∈ tl, lexOk p.1 = true := by
        intro p hp; exact hr p (by rw [hrest]; simp [hp])
      cases s.la0 with
      | none => exact ⟨h1, by simpa using hlt, htl⟩
      | some li => cases li <;> exact ⟨h1, by simpa using hlt, htl⟩

theorem peekE_ok_la0 {s : PState} {t : Token} (hp : s.peekE = .ok t) :
    s.la0 = some (.tok t) := by
  unfold PState.peekE at hp
  cases hla : s.la0 with
  | none => rw [hla] at hp; cases hp
  | some li =>
      cases li with
      | tok t' => rw [hla] at hp; injection hp with hh; rw [hh]
      | lexErr => rw [hla] at hp; cases hp

theorem noCmp_peek {s : PState} {t : Token} (h : NoCmpState s)
    (hp : s.peekE = .ok t) : t.isCmp = false := by
  have hla := peekE_ok_la0 hp
  have := h.1 (.tok t) (by rw [hla]; rfl)
  simpa [lexOk] using this

theorem nextT_fst_of_peek {s : PState} {t : Token}
    (hp : s.peekE = .ok t) : (PState.nextT s).1 = .ok t := by
  have hla := peekE_ok_la0 hp
  unfold PState.nextT PState.nextRet
  cases s.rest with
  | nil => rw [hla]
  | cons hd tl => obtain ⟨lt, sp⟩ := hd; rw [hla]

theorem next_of_peek {s : PState} {t : Token} (hp : s.peekE = .ok t) :
    PM.next s = POut.ok t (PState.nextT s).2 := by
  unfold PM.next
  have h1 := nextT_fst_of_peek hp
  cases hn : PState.nextT s with
  | mk r s' =>
      rw [hn] at h1
      cases r with
      | ok t' => cases h1; rfl
      | error e => cases h1

theorem bind_next_of_peek {β : Type} {s : PState} {t : Token}
    {f : Token → PM β} (hp : s.peekE = .ok t) :
    PM.bind PM.next f s = f t (PState.nextT s).2 := by
  unfold PM.bind
  rw [next_of_peek hp]

theorem bind_peek_of_peek {β : Type} {s : PState} {t : Token}
    {f : Token → PM β} (hp : s.peekE = .ok t) :
    PM.bind PM.peek f s = f t s := by
  unfold PM.bind PM.peek
  rw [hp]

theorem bind_err {α β : Type} {m : PM α} {f : α → PM β} {s : PState}
    {e : Error} {s' : PState} (h : m s = .err e s') :
    PM.bind m f s = .err e s' := by
  unfold PM.bind
  rw [h]

/-- Outcomes of the no-comparison safety analysis: the state invariant is
preserved and a panic is impossible. -/
def SafeOut {α : Type} : POut α → Prop := OutPred NoCmpState False

theorem safe_next {s : PState} (h : NoCmpState s) : SafeOut (PM.next s) := by
  unfold PM.next
  cases hn : PState.nextT s with
  | mk r s' =>
      have hs' : NoCmpState s' := by
        have h2 := noCmp_nextT h
        rw [hn] at h2
        exact h2
      cases r with
      | ok t => exact hs'
      | error e => exact hs'

theorem safe_peek {s : PState} (h : NoCmpState s) : SafeOut (PM.peek s) := by
  unfold PM.peek
  cases s.peekE with
  | ok t => exact h
  | error e => exact h

theorem safe_skipNewline :
    ∀ (fuel : Nat) {s : PState}, NoCmpState s →
      SafeOut (skipNewline fuel s) := by
  intro fuel
  induction fuel with
  | zero => intro s _; exact trivial
  | succ n ihn =>
      intro s h
      unfold skipNewline
      cases s.peekE with
      | error e => exact h
      | ok t =>
          cases t <;> first
            | exact ihn (noCmp_nextT h)
            | exact h

theorem safe_tryNext {tok : Token} {s : PState} (h : NoCmpState s) :
    SafeOut (tryNext tok s) := by
  unfold tryNext
  cases s.peekE with
  | error e => exact h
  | ok t =>
      dsimp only
      by_cases ht : t = tok
      · rw [if_pos ht]
        exact outPred_bind (safe_next h) (fun a s' hs' => hs')
      · rw [if_neg ht]
        exact h

theorem safe_identP {s : PState} (h : NoCmpState s) :
    SafeOut (identP s) := by
  unfold identP
  refine outPred_bind (safe_next h) ?_
  intro t s' hs'
  cases t <;> exact hs'

theorem safe_exprParseLiteral {s : PState} (h : NoCmpState s) :
    SafeOut (exprParseLiteral s) := by
  unfold exprParseLiteral
  refine outPred_bind (safe_next h) ?_
  intro t s' hs'
  cases t <;> exact hs'

/-- On a comparison-free state, the operator the loop peeks is never one
of the non-associative comparison operators. -/
theorem peekOperator_cases {s : PState} {op : Operator} (h : NoCmpState s)
    (hp : peekOperator s = some op) :
    op = .Add ∨ op = .Sub ∨ op = .Mul ∨ op = .Div ∨ op = .Mod ∨
    op = .LogicAnd ∨ op = .LogicOr ∨ op = .Index ∨ op = .Field ∨
    op = .Call ∨ op = .CallEnd ∨ op = .IndexEnd ∨ op = .Comma := by
  unfold peekOperator at hp
  cases hpk : s.peekE with
  | error e => rw [hpk] at hp; cases hp
  | ok t =>
      have hc := noCmp_peek h hpk
      rw [hpk] at hp
      cases t <;> try (rename_i k; cases k)
      all_goals
        first
        | (injection hp with hh; rw [Eq.symm hh]; decide)
        | (cases hp; done)
        | (exact absurd hc (by simp [Token.isCmp]))

/-- On comparison-free states, the three routines of the standalone
expression parser (entry recursion, operator loop, call-argument loop)
preserve the invariant and never panic, for any fuel and any minimum
binding power of at least 2 (the only values the parser ever passes). -/
theorem exprSafe (fuel : Nat) :
    (∀ minPrec s, 2 ≤ minPrec → NoCmpState s →
        SafeOut (exprParseInner fuel minPrec s))
    ∧ (∀ minPrec left s, 2 ≤ minPrec → NoCmpState s →
        SafeOut (exprLoop fuel minPrec left s))
    ∧ (∀ items s, NoCmpState s → SafeOut (exprCallArgs fuel items s)) := by
  induction fuel with
  | zero =>
      exact ⟨fun _ _ _ _ => trivial, fun _ _ _ _ _ => trivial,
        fun _ _ _ => trivial⟩
  | succ n ih =>
      obtain ⟨ihInner, ihLoop, ihArgs⟩ := ih
      refine ⟨?_, ?_, ?_⟩
      · intro minPrec s hmin h
        unfold exprParseInner
        refine outPred_bind ?_ (fun left s' hs' =>
          ihLoop minPrec left s' hmin hs')
        dsimp only
        cases hpk : s.peekE with
        | error e => exact h
        | ok t =>
            cases t
            case Integer i => exact safe_exprParseLiteral h
            case Float f => exact safe_exprParseLiteral h
            case Ident i => exact safe_exprParseLiteral h
            case Sub =>
                rw [bind_next_of_peek hpk]
                dsimp only [Operator.r_prec, Operator.associvity,
                  Operator.base_prec]
                refine outPred_bind
                  (ihInner 12 _ (by omega) (noCmp_nextT h))
                  (fun rhs s2 hs2 => ?_)
                dsimp only [Operator.as_unary_op]
                exact hs2
            case Not =>
                rw [bind_next_of_peek hpk]
                dsimp only [Operator.r_prec, Operator.associvity,
                  Operator.base_prec]
                refine outPred_bind
                  (ihInner 12 _ (by omega) (noCmp_nextT h))
                  (fun rhs s2 hs2 => ?_)
                dsimp only [Operator.as_unary_op]
                exact hs2
            case ParenStart =>
                refine outPred_bind (safe_next h) (fun _ s1 hs1 => ?_)
                refine outPred_bind (ihInner 2 s1 (by omega) hs1)
                  (fun l s2 hs2 => ?_)
                refine outPred_bind (safe_tryNext hs2)
                  (fun _ s3 hs3 => hs3)
            all_goals exact h
      · intro minPrec left s hmin h
        unfold exprLoop
        cases hop : peekOperator s with
        | none => exact h
        | some op =>
            have hdisj := peekOperator_cases h hop
            -- reduce the operator-table lookups, then split the
            -- binding-power test; the break-out branch returns the state
            -- unchanged, the consume branch runs the arm's body
            rcases hdisj with
              rfl | rfl | rfl | rfl | rfl | rfl | rfl | rfl | rfl | rfl |
              rfl | rfl | rfl <;>
              dsimp only [Operator.l_prec, Operator.associvity,
                Operator.base_prec] <;>
              split <;>
              first
              | exact h
              | -- the three loop-terminator operators CallEnd, IndexEnd,
                -- Comma: binding power 0 is always below min_prec ≥ 2
                (rename_i hcond
                 exact absurd (by omega : (0 : Nat) < minPrec) hcond)
              | -- the seven infix operators
                (refine outPred_bind (safe_next h) (fun _ s1 hs1 => ?_)
                 dsimp only [Operator.operator_type, Operator.r_prec,
                   Operator.associvity, Operator.base_prec]
                 refine outPred_bind (safe_skipNewline n hs1)
                   (fun _ s2 hs2 => ?_)
                 refine outPred_bind (ihInner _ s2 (by omega) hs2)
                   (fun right s3 hs3 => ?_)
                 dsimp only [convert_to_bin_expr, Operator.as_binary_op,
                   Option.map]
                 exact ihLoop minPrec _ s3 hmin hs3)
              | -- postfix field access
                (refine outPred_bind (safe_next h) (fun _ s1 hs1 => ?_)
                 dsimp only [Operator.operator_type]
                 refine outPred_bind (safe_identP hs1)
                   (fun name s2 hs2 => ?_)
                 exact ihLoop minPrec _ s2 hmin hs2)
              | -- postfix index
                (refine outPred_bind (safe_next h) (fun _ s1 hs1 => ?_)
                 dsimp only [Operator.operator_type]
                 refine outPred_bind (ihInner 2 s1 (by omega) hs1)
                   (fun e s2 hs2 => ?_)
                 refine outPred_bind (safe_tryNext hs2)
                   (fun _ s3 hs3 => ?_)
                 exact ihLoop minPrec _ s3 hmin hs3)
              | -- postfix call
                (refine outPred_bind (safe_next h) (fun _ s1 hs1 => ?_)
                 dsimp only [Operator.operator_type]
                 refine outPred_bind (ihArgs _ s1 hs1)
                   (fun args s2 hs2 => ?_)
                 exact ihLoop minPrec _ s2 hmin hs2)
      · intro items s h
        unfold exprCallArgs
        cases hpk : s.peekE with
        | error e => exact h
        | ok t =>
            cases t
            case ParenEnd =>
              exact outPred_bind (safe_next h) (fun _ s' hs' => hs')
            all_goals
              refine outPred_bind (ihInner 2 _ (by omega) h)
                (fun item s1 hs1 => ?_)
              refine outPred_bind (safe_next hs1) (fun t2 s2 hs2 => ?_)
              cases t2 <;> first
                | exact ihArgs _ _ hs2
                | exact hs2

theorem noCmp_mkParser {toks : List (LexItem × Span)} {n csym : Nat}
    (h : ∀ p ∈ toks, lexOk p.1 = true) :
    NoCmpState (mkParser toks n csym) := by
  unfold mkParser
  apply noCmp_nextT
  apply noCmp_nextT
  exact ⟨by simp, by simp, h⟩

/-- Claim C10 (amended): on every token stream containing no
comparison-operator token, `ExprParser::parse` never panics — the `todo!`
branches (non-associative binding powers), the `panic!` arms of the
operator-conversion helpers and the `unreachable!` arms are all
unreachable — for every fuel bound, source length and interned
constructor symbol. -/
theorem C10_amended_no_panic (toks : List (LexItem × Span))
    (h : ∀ p ∈ toks, lexOk p.1 = true) (fuel n csym : Nat) :
    POut.isPanic (exprParse fuel (mkParser toks n csym)) = false := by
  have hsafe : SafeOut (exprParse fuel (mkParser toks n csym)) := by
    unfold exprParse
    exact outPred_bind
      ((exprSafe fuel).1 2 _ (by omega) (noCmp_mkParser h))
      (fun item s' hs' => hs')
  cases hout : exprParse fuel (mkParser toks n csym) with
  | ok a s' => rfl
  | err e s' => rfl
  | fuelOut => rfl
  | panicked => rw [hout] at hsafe; exact hsafe.elim

/-- Witness for the amended C10: the comparison-free stream `a + b`
(symbols 0, 1) never makes the expression parser panic. -/
theorem C10_amended_no_panic_witness :
    POut.isPanic (exprParse 20 (mkParser [tk (.Ident 0) 0 1, tk .Add 1 2,
      tk (.Ident 1) 2 3] 3 100)) = false :=
  C10_amended_no_panic [tk (.Ident 0) 0 1, tk .Add 1 2, tk (.Ident 1) 2 3]
    (by decide) 20 3 100

/-! Accumulator analysis of the statement parser (claim C9): the
non-fatal list only ever receives diagnostics of the four recoverable
kinds. -/

/-- The four diagnostic kinds the parser records non-fatally. -/
def recoverable (e : Error) : Prop :=
  e.errType = .TooManyParams ∨ e.errType = .TooManyArgs ∨
    e.errType = .ConstructorRedefined ∨ e.errType = .ConstructorRequired

instance (e : Error) : Decidable (recoverable e) := by
  unfold recoverable; infer_instance

/-- Every diagnostic accumulated so far is of a recoverable kind. -/
def GoodAcc (s : PState) : Prop := ∀ e ∈ s.nonFatal, recoverable e

/-- Outcomes of the accumulator analysis: the invariant holds in the
final state of any completed run. -/
def AccOut {α : Type} : POut α → Prop := OutPred GoodAcc True

theorem nextT_snd_nonFatal (s : PState) :
    (PState.nextT s).2.nonFatal = s.nonFatal := by
  unfold PState.nextT PState.nextRet
  cases s.rest with
  | nil =>
      cases s.la0 with
      | none => rfl
      | some li => cases li <;> rfl
  | cons hd tl =>
      obtain ⟨lt, sp⟩ := hd
      cases s.la0 with
      | none => rfl
      | some li => cases li <;> rfl

theorem goodAcc_nextT {s : PState} (h : GoodAcc s) :
    GoodAcc (PState.nextT s).2 := by
  intro e he
  rw [nextT_snd_nonFatal] at he
  exact h e he

theorem acc_pushErr {s : PState} {e : Error} (h : GoodAcc s)
    (he : recoverable e) : GoodAcc (s.pushErr e) := by
  intro e' he'
  rcases List.mem_append.mp he' with hin | hin
  · exact h e' hin
  · rw [List.mem_singleton.mp hin]; exact he

theorem acc_next {s : PState} (h : GoodAcc s) : AccOut (PM.next s) := by
  unfold PM.next
  cases hn : PState.nextT s with
  | mk r s' =>
      have hs' : GoodAcc s' := by
        have h2 := goodAcc_nextT h
        rw [hn] at h2
        exact h2
      cases r with
      | ok t => exact hs'
      | error e => exact hs'

theorem acc_nextIgnore {s : PState} (h : GoodAcc s) :
    AccOut (PM.nextIgnore s) := goodAcc_nextT h

theorem acc_peek {s : PState} (h : GoodAcc s) : AccOut (PM.peek s) := by
  unfold PM.peek
  cases s.peekE with
  | ok t => exact h
  | error e => exact h

theorem acc_peek1 {s : PState} (h : GoodAcc s) : AccOut (PM.peek1 s) := by
  unfold PM.peek1
  cases s.peek1E with
  | ok t => exact h
  | error e => exact h

theorem acc_skipNewline :
    ∀ (fuel : Nat) {s : PState}, GoodAcc s →
      AccOut (skipNewline fuel s) := by
  intro fuel
  induction fuel with
  | zero => intro s _; exact trivial
  | succ n ihn =>
      intro s h
      unfold skipNewline
      cases s.peekE with
      | error e => exact h
      | ok t =>
          cases t <;> first
            | exact ihn (goodAcc_nextT h)
            | exact h

theorem acc_tryNext {tok : Token} {s : PState} (h : GoodAcc s) :
    AccOut (tryNext tok s) := by
  unfold tryNext
  cases s.peekE with
  | error e => exact h
  | ok t =>
      dsimp only
      by_cases ht : t = tok
      · rw [if_pos ht]
        exact outPred_bind (acc_next h) (fun a s' hs' => hs')
      · rw [if_neg ht]
        exact h

theorem acc_identP {s : PState} (h : GoodAcc s) : AccOut (identP s) := by
  unfold identP
  refine outPred_bind (acc_next h) ?_
  intro t s' hs'
  cases t <;> exact hs'

theorem acc_parseStmtEnd {s : PState} (h : GoodAcc s) :
    AccOut (parseStmtEnd s) := by
  unfold parseStmtEnd
  cases s.peekE with
  | error e => exact h
  | ok t =>
      cases t <;> first
        | exact outPred_bind (acc_next h) (fun a s' hs' => hs')
        | exact h

theorem acc_parseBinOp {peekSecond : Bool} {s : PState} (h : GoodAcc s) :
    AccOut (parseBinOp peekSecond s) := by
  unfold parseBinOp
  dsimp only
  split
  · exact h
  · cases hn : PState.nextT s with
    | mk r s' =>
        have hs' : GoodAcc s' := by
          have h2 := goodAcc_nextT h
          rw [hn] at h2
          exact h2
        cases r with
        | ok t => exact hs'
        | error e => exact trivial

theorem acc_parsePublicity {s : PState} (h : GoodAcc s) :
    AccOut (parsePublicity s) := by
  unfold parsePublicity
  refine outPred_bind ?_ (fun perms s' hs' => by
    split <;> exact hs')
  refine outPred_bind (acc_peek h) (fun t1 s1 hs1 => ?_)
  cases t1 <;> try exact hs1
  rename_i k
  cases k <;> try exact hs1
  refine outPred_bind (acc_next hs1) (fun _ s2 hs2 => ?_)
  refine outPred_bind (acc_peek hs2) (fun t2 s3 hs3 => ?_)
  cases t2 <;> try exact hs3
  refine outPred_bind (acc_next hs3) (fun _ s4 hs4 => ?_)
  refine outPred_bind (acc_next hs4) (fun t3 s5 hs5 => ?_)
  refine outPred_bind ?_ (fun perms s6 hs6 =>
    outPred_bind (acc_tryNext hs6) (fun _ s7 hs7 => hs7))
  cases t3 <;> try exact hs5
  rename_i k2
  cases k2 <;> try exact hs5
  · refine outPred_bind (acc_peek hs5) (fun t4 s6 hs6 => ?_)
    cases t4 <;> try exact hs6
    rename_i k3
    cases k3 <;> try exact hs6
    exact outPred_bind (acc_next hs6) (fun _ s7 hs7 => hs7)

theorem acc_varTypeMut {vt : Permissions} {s : PState} (h : GoodAcc s) :
    AccOut (parseVarType.varTypeMut vt s) := by
  unfold parseVarType.varTypeMut
  cases s.peekE with
  | error e => exact h
  | ok t =>
      cases t <;> try exact h
      rename_i k
      cases k <;> try exact h
      exact outPred_bind (acc_next h) (fun _ s' hs' => hs')

theorem acc_parseVarType {s : PState} (h : GoodAcc s) :
    AccOut (parseVarType s) := by
  unfold parseVarType
  cases hn : PState.nextT s with
  | mk r s' =>
      have hs' : GoodAcc s' := by
        have h2 := goodAcc_nextT h
        rw [hn] at h2
        exact h2
      cases r with
      | error e => exact hs'
      | ok t =>
          cases t <;> try exact hs'
          rename_i k
          cases k <;> first
            | exact acc_varTypeMut hs'
            | exact hs'

theorem acc_parsePartialVarType {s : PState} (h : GoodAcc s) :
    AccOut (parsePartialVarType s) := by
  unfold parsePartialVarType
  refine outPred_bind (acc_peek h) (fun t s1 hs1 => ?_)
  cases t <;> try exact hs1
  rename_i k
  cases k <;> try exact hs1
  · refine outPred_bind (acc_next hs1) (fun _ s2 hs2 => ?_)
    refine outPred_bind (acc_peek hs2) (fun t2 s3 hs3 => ?_)
    cases t2 <;> try exact hs3
    rename_i k2
    cases k2 <;> try exact hs3
    exact outPred_bind (acc_next hs3) (fun _ s4 hs4 => hs4)
  · exact outPred_bind (acc_next hs1) (fun _ s2 hs2 => hs2)

theorem acc_parseFunctionParam {s : PState} (h : GoodAcc s) :
    AccOut (parseFunctionParam s) := by
  unfold parseFunctionParam
  refine outPred_bind (acc_parsePartialVarType h) (fun vt s1 hs1 => ?_)
  exact outPred_bind (acc_identP hs1) (fun name s2 hs2 => hs2)

theorem acc_setVarDots :
    ∀ (fuel : Nat) {left : List Symbol} {s : PState}, GoodAcc s →
      AccOut (setVarDots fuel left s) := by
  intro fuel
  induction fuel with
  | zero => intro left s _; exact trivial
  | succ n ihn =>
      intro left s h
      unfold setVarDots
      cases s.peekE with
      | error e => exact h
      | ok t =>
          cases t <;> try exact h
          exact outPred_bind (acc_next h) (fun _ s1 hs1 =>
            outPred_bind (acc_identP hs1) (fun name s2 hs2 => ihn hs2))

theorem acc_parseParenListLoop {T : Type} {f : PM T}
    (hf : ∀ s, GoodAcc s → AccOut (f s)) :
    ∀ (fuel : Nat) {start : Nat} {items : List T} {s : PState},
      GoodAcc s → AccOut (parseParenListLoop f fuel start items s) := by
  intro fuel
  induction fuel with
  | zero => intro start items s _; exact trivial
  | succ n ihn =>
      intro start items s h
      unfold parseParenListLoop
      refine outPred_bind (acc_skipNewline n h) (fun _ s1 hs1 => ?_)
      cases s1.peekE with
      | error e => dsimp only; split <;> exact hs1
      | ok t =>
          cases t
          case ParenEnd =>
            exact outPred_bind (acc_next hs1) (fun _ s2 hs2 => hs2)
          all_goals
            cases hfr : f s1 with
            | panicked => exact trivial
            | fuelOut => exact trivial
            | err e s2 =>
                have hs2 : GoodAcc s2 := by
                  have h2 := hf s1 hs1
                  rw [hfr] at h2
                  exact h2
                dsimp only; split <;> exact hs2
            | ok item s2 =>
                have hs2 : GoodAcc s2 := by
                  have h2 := hf s1 hs1
                  rw [hfr] at h2
                  exact h2
                refine outPred_bind (acc_skipNewline n hs2)
                  (fun _ s3 hs3 => ?_)
                cases hn : PState.nextT s3 with
                | mk r s4 =>
                    have hs4 : GoodAcc s4 := by
                      have h2 := goodAcc_nextT hs3
                      rw [hn] at h2
                      exact h2
                    cases r with
                    | error e => dsimp only; split <;> exact hs4
                    | ok t2 =>
                        cases t2 <;> first
                          | exact ihn hs4
                          | exact hs4

theorem acc_parseParenList {T : Type} {f : PM T}
    (hf : ∀ s, GoodAcc s → AccOut (f s)) (fuel : Nat) {s : PState}
    (h : GoodAcc s) : AccOut (parseParenList f fuel s) := by
  unfold parseParenList
  exact outPred_bind (acc_tryNext h) (fun _ s1 hs1 =>
    acc_parseParenListLoop hf fuel hs1)

theorem accOut_err {α : Type} {x : POut α} {e : Error} {s' : PState}
    (hx : AccOut x) (he : x = .err e s') : GoodAcc s' := by
  rw [he] at hx; exact hx

theorem accOut_ok {α : Type} {x : POut α} {a : α} {s' : PState}
    (hx : AccOut x) (he : x = .ok a s') : GoodAcc s' := by
  rw [he] at hx; exact hx

/-- The accumulator invariant for a parser computation. -/
def AccPM {α : Type} (m : PM α) : Prop :=
  ∀ s, GoodAcc s → AccOut (m s)

/-- Every routine of the statement parser preserves the accumulator
invariant: only recoverable diagnostics are ever appended to the
non-fatal list, at any fuel. -/
theorem accAll (fuel : Nat) :
    AccPM (parseStmt fuel) ∧ AccPM (parseWhileStmt fuel) ∧
    AccPM (parseIfStmt fuel) ∧ (∀ c, AccPM (parseIfLoop fuel c)) ∧
    (∀ p, AccPM (parseClassStmt fuel p)) ∧
    (∀ a b c d e, AccPM (parseClassLoop fuel a b c d e)) ∧
    (∀ a b c d e, AccPM (parseClassCont fuel a b c d e)) ∧
    AccPM (parseSetVarStmt fuel) ∧ AccPM (parseCreateConstStmt fuel) ∧
    AccPM (parseCreateVarStmt fuel) ∧
    (∀ p, AccPM (parseFunctionStmt fuel p)) ∧
    (∀ ft p, AccPM (parseFunctionInner fuel ft p)) ∧
    AccPM (parseBlock fuel) ∧ (∀ a b, AccPM (parseBlockLoop fuel a b)) ∧
    AccPM (parseExpr fuel) ∧ (∀ l, AccPM (parseTailExpr fuel l)) ∧
    AccPM (parseBinOpExpr fuel) ∧ AccPM (parseUnaryOpExpr fuel) ∧
    AccPM (parseParenExpr fuel) ∧ AccPM (parseLiteralExpr fuel) ∧
    (∀ a b, AccPM (parseObjectLoop fuel a b)) ∧
    (∀ a b, AccPM (parseListLoop fuel a b)) := by
  induction fuel with
  | zero =>
      refine ⟨?_, ?_, ?_, ?_, ?_, ?_, ?_, ?_, ?_, ?_, ?_, ?_, ?_, ?_, ?_,
        ?_, ?_, ?_, ?_, ?_, ?_, ?_⟩
      all_goals intros
      all_goals unfold AccPM
      all_goals intro s hs
      all_goals simp only [parseStmt, parseWhileStmt, parseIfStmt,
        parseIfLoop, parseClassStmt, parseClassLoop, parseClassCont,
        parseSetVarStmt, parseCreateConstStmt, parseCreateVarStmt,
        parseFunctionStmt, parseFunctionInner, parseBlock, parseBlockLoop,
        parseExpr, parseTailExpr, parseBinOpExpr, parseUnaryOpExpr,
        parseParenExpr, parseLiteralExpr, parseObjectLoop, parseListLoop]
      all_goals exact trivial
  | succ n ih =>
      obtain ⟨ihStmt, ihWhile, ihIf, ihIfLoop, ihClass, ihClassLoop,
        ihClassCont, ihSet, ihConst, ihCreateVar, ihFunction, ihFuncInner,
        ihBlock, ihBlockLoop, ihExpr, ihTail, ihBinOp, ihUnary, ihParen,
        ihLit, ihObj, ihList⟩ := ih
      refine ⟨?_, ?_, ?_, ?_, ?_, ?_, ?_, ?_, ?_, ?_, ?_, ?_, ?_, ?_, ?_,
        ?_, ?_, ?_, ?_, ?_, ?_, ?_⟩
      · -- parseStmt
        intro s h
        unfold parseStmt
        refine outPred_bind ?_ (fun ret s' hs' => ?_)
        case refine_2 =>
          dsimp only
          split
          · exact outPred_bind (acc_parseStmtEnd hs') (fun _ s2 hs2 => hs2)
          · exact hs'
        refine outPred_bind (acc_parsePublicity h) (fun pub s1 hs1 => ?_)
        cases pub with
        | some perms =>
            refine outPred_bind (acc_peek hs1) (fun t s2 hs2 => ?_)
            cases t <;> try exact hs2
            rename_i k
            cases k <;> try exact hs2
            · exact outPred_bind (ihFunction _ s2 hs2)
                (fun st s3 hs3 => hs3)
            · exact outPred_bind (ihClass _ s2 hs2) (fun st s3 hs3 => hs3)
        | none =>
            refine outPred_bind (acc_peek hs1) (fun t s2 hs2 => ?_)
            cases t <;>
              try exact outPred_bind (ihExpr _ hs2) (fun e s3 hs3 => hs3)
            rename_i k
            cases k <;>
              try exact outPred_bind (ihExpr _ hs2) (fun e s3 hs3 => hs3)
            · -- function
              exact outPred_bind (ihFunction _ s2 hs2)
                (fun st s3 hs3 => hs3)
            · -- var
              exact outPred_bind (ihCreateVar s2 hs2) (fun st s3 hs3 => hs3)
            · -- let
              exact outPred_bind (ihCreateVar s2 hs2) (fun st s3 hs3 => hs3)
            · -- const
              exact outPred_bind (ihConst s2 hs2) (fun st s3 hs3 => hs3)
            · -- class
              exact outPred_bind (ihClass _ s2 hs2) (fun st s3 hs3 => hs3)
            · -- set
              exact outPred_bind (ihSet s2 hs2) (fun st s3 hs3 => hs3)
            · -- delete
              refine outPred_bind (acc_next hs2) (fun _ s3 hs3 => ?_)
              dsimp only
              exact outPred_bind (acc_identP hs3) (fun name s4 hs4 => hs4)
            · -- if
              exact outPred_bind (ihIf s2 hs2) (fun st s3 hs3 => hs3)
            · -- while
              exact outPred_bind (ihWhile s2 hs2) (fun st s3 hs3 => hs3)
            · -- return
              refine outPred_bind (acc_next hs2) (fun _ s3 hs3 => ?_)
              dsimp only
              refine outPred_bind ?_ (fun expr s4 hs4 => hs4)
              cases s3.peekE with
              | error e => exact hs3
              | ok t2 =>
                  cases t2 <;>
                    first
                    | exact hs3
                    | exact outPred_bind (ihExpr _ hs3)
                        (fun e s4 hs4 => hs4)
            · -- break
              exact outPred_bind (acc_next hs2) (fun _ s3 hs3 => hs3)
            · -- continue
              exact outPred_bind (acc_next hs2) (fun _ s3 hs3 => hs3)
            · -- print
              refine outPred_bind (acc_next hs2) (fun _ s3 hs3 => ?_)
              dsimp only
              exact outPred_bind (ihExpr _ hs3) (fun e s4 hs4 => hs4)
      · -- parseWhileStmt
        intro s h
        unfold parseWhileStmt
        refine outPred_bind (acc_tryNext h) (fun _ s1 hs1 => ?_)
        dsimp only
        refine outPred_bind (ihExpr s1 hs1) (fun c s2 hs2 => ?_)
        exact outPred_bind (ihBlock s2 hs2) (fun b s3 hs3 => hs3)
      · -- parseIfStmt
        intro s h
        unfold parseIfStmt
        refine outPred_bind (acc_tryNext h) (fun _ s1 hs1 => ?_)
        dsimp only
        refine outPred_bind (ihExpr s1 hs1) (fun c s2 hs2 => ?_)
        refine outPred_bind (ihBlock s2 hs2) (fun b s3 hs3 => ?_)
        exact outPred_bind (ihIfLoop _ s3 hs3) (fun r s4 hs4 => hs4)
      · -- parseIfLoop
        intro conditions s h
        unfold parseIfLoop
        cases s.peekE with
        | error e => exact h
        | ok t =>
            cases t <;> try exact h
            rename_i k
            cases k <;> try exact h
            refine outPred_bind (acc_next h) (fun _ s1 hs1 => ?_)
            dsimp only
            cases s1.peekE with
            | error e => exact hs1
            | ok t2 =>
                cases t2 <;> try exact hs1
                case CurlyStart =>
                  exact outPred_bind (ihBlock s1 hs1) (fun b s2 hs2 => hs2)
                rename_i k2
                cases k2 <;> try exact hs1
                refine outPred_bind (acc_next hs1) (fun _ s2 hs2 => ?_)
                refine outPred_bind (ihExpr s2 hs2) (fun c s3 hs3 => ?_)
                refine outPred_bind (ihBlock s3 hs3) (fun b s4 hs4 => ?_)
                exact ihIfLoop _ s4 hs4
      · -- parseClassStmt
        intro p s h
        unfold parseClassStmt
        refine outPred_bind (acc_tryNext h) (fun _ s1 hs1 => ?_)
        dsimp only
        refine outPred_bind (acc_identP hs1) (fun name s2 hs2 => ?_)
        refine outPred_bind (acc_tryNext hs2) (fun _ s3 hs3 => ?_)
        dsimp only
        refine outPred_bind (ihClassLoop _ _ _ _ _ s3 hs3)
          (fun body s4 hs4 => ?_)
        obtain ⟨fields, methods, associated, constructor⟩ := body
        dsimp only
        split
        · exact acc_pushErr hs4 (Or.inr (Or.inr (Or.inr rfl)))
        · exact hs4
      · -- parseClassLoop
        intro a b c d e s h
        unfold parseClassLoop
        refine outPred_bind (acc_skipNewline n h) (fun _ s0 hs0 => ?_)
        refine outPred_bind (acc_parsePublicity hs0) (fun pub s1 hs1 => ?_)
        dsimp only
        cases s1.peekE with
        | error e2 => dsimp only; split <;> exact hs1
        | ok t =>
            cases t <;> try exact hs1
            case CurlyEnd =>
              exact outPred_bind (acc_next hs1) (fun _ s2 hs2 => hs2)
            case Ident i =>
              refine outPred_bind (ihFuncInner _ _ s1 hs1)
                (fun m s2 hs2 => ?_)
              exact ihClassCont _ _ _ _ _ s2 hs2
            rename_i k
            cases k <;> try exact hs1
            · -- function
              refine outPred_bind (acc_next hs1) (fun _ s2 hs2 => ?_)
              refine outPred_bind (ihFuncInner _ _ s2 hs2)
                (fun f s3 hs3 => ?_)
              exact ihClassCont _ _ _ _ _ s3 hs3
            · -- var
              refine outPred_bind (acc_parseVarType hs1)
                (fun vt s2 hs2 => ?_)
              refine outPred_bind (acc_identP hs2) (fun fn s3 hs3 => ?_)
              exact ihClassCont _ _ _ _ _ s3 hs3
            · -- let
              refine outPred_bind (acc_parseVarType hs1)
                (fun vt s2 hs2 => ?_)
              refine outPred_bind (acc_identP hs2) (fun fn s3 hs3 => ?_)
              exact ihClassCont _ _ _ _ _ s3 hs3
            · -- mut
              refine outPred_bind (acc_next hs1) (fun _ s2 hs2 => ?_)
              refine outPred_bind (ihFuncInner _ _ s2 hs2)
                (fun m s3 hs3 => ?_)
              exact ihClassCont _ _ _ _ _ s3 hs3
            · -- constructor
              refine outPred_bind (ihFuncInner _ _ s1 hs1)
                (fun newC s2 hs2 => ?_)
              dsimp only
              cases e with
              | none => exact ihClassCont _ _ _ _ _ s2 hs2
              | some cOld =>
                  exact ihClassCont _ _ _ _ _ _
                    (acc_pushErr hs2 (Or.inr (Or.inr (Or.inl rfl))))
      · -- parseClassCont
        intro a b c d e s h
        unfold parseClassCont
        cases s.peekE with
        | error e2 => dsimp only; split <;> exact h
        | ok t =>
            cases t <;> try exact h
            case CurlyEnd =>
              exact outPred_bind (acc_next h) (fun _ s2 hs2 => hs2)
            all_goals
              refine outPred_bind (acc_next h) (fun _ s2 hs2 => ?_)
              refine outPred_bind (acc_skipNewline n hs2)
                (fun _ s3 hs3 => ?_)
              exact ihClassLoop _ _ _ _ _ s3 hs3
      · -- parseSetVarStmt
        intro s h
        unfold parseSetVarStmt
        refine outPred_bind (acc_tryNext h) (fun _ s1 hs1 => ?_)
        dsimp only
        refine outPred_bind (acc_identP hs1) (fun first s2 hs2 => ?_)
        refine outPred_bind (acc_setVarDots n hs2) (fun left s3 hs3 => ?_)
        refine outPred_bind (acc_tryNext hs3) (fun _ s4 hs4 => ?_)
        exact outPred_bind (ihExpr s4 hs4) (fun d s5 hs5 => hs5)
      · -- parseCreateConstStmt
        intro s h
        unfold parseCreateConstStmt
        refine outPred_bind (acc_tryNext h) (fun _ s1 hs1 => ?_)
        dsimp only
        refine outPred_bind (acc_identP hs1) (fun name s2 hs2 => ?_)
        refine outPred_bind (acc_tryNext hs2) (fun _ s3 hs3 => ?_)
        exact outPred_bind (ihExpr s3 hs3) (fun d s4 hs4 => hs4)
      · -- parseCreateVarStmt
        intro s h
        unfold parseCreateVarStmt
        dsimp only
        refine outPred_bind (acc_parseVarType h) (fun vt s1 hs1 => ?_)
        refine outPred_bind (acc_identP hs1) (fun name s2 hs2 => ?_)
        cases s2.peekE with
        | error e => exact hs2
        | ok t =>
            cases t <;> try exact hs2
            refine outPred_bind (acc_next hs2) (fun _ s3 hs3 => ?_)
            exact outPred_bind (ihExpr s3 hs3) (fun d s4 hs4 => hs4)
      · -- parseFunctionStmt
        intro p s h
        unfold parseFunctionStmt
        refine outPred_bind (acc_tryNext h) (fun _ s1 hs1 => ?_)
        dsimp only
        exact outPred_bind (ihFuncInner _ _ s1 hs1) (fun f s2 hs2 => hs2)
      · -- parseFunctionInner
        intro ft p s h
        unfold parseFunctionInner
        refine outPred_bind ?_ (fun name s1 hs1 => ?_)
        · refine outPred_bind (acc_next h) (fun tok s0 hs0 => ?_)
          cases tok <;> try exact hs0
          rename_i k
          cases k <;> exact hs0
        · dsimp only
          refine outPred_bind
            (acc_parseParenList (fun s2 hs2 => acc_parseFunctionParam hs2)
              n hs1) (fun params s2 hs2 => ?_)
          dsimp only
          split
          · exact outPred_bind
              (ihBlock _ (acc_pushErr hs2 (Or.inl rfl)))
              (fun body s3 hs3 => hs3)
          · exact outPred_bind (ihBlock _ hs2) (fun body s3 hs3 => hs3)
      · -- parseBlock
        intro s h
        unfold parseBlock
        refine outPred_bind (acc_tryNext h) (fun _ s1 hs1 => ?_)
        dsimp only
        exact outPred_bind (ihBlockLoop _ _ s1 hs1) (fun items s2 hs2 => hs2)
      · -- parseBlockLoop
        intro a b s h
        unfold parseBlockLoop
        refine outPred_bind (acc_skipNewline n h) (fun _ s1 hs1 => ?_)
        cases s1.peekE with
        | error e => dsimp only; split <;> exact hs1
        | ok t =>
            cases t
            case CurlyEnd =>
              exact outPred_bind (acc_next hs1) (fun _ s2 hs2 => hs2)
            all_goals
              cases hps : parseStmt n s1 with
              | panicked => exact trivial
              | fuelOut => exact trivial
              | err e s2 =>
                  have hs2 := accOut_err (ihStmt s1 hs1) hps
                  dsimp only; split <;> exact hs2
              | ok item s2 =>
                  have hs2 := accOut_ok (ihStmt s1 hs1) hps
                  exact ihBlockLoop _ _ s2 hs2
      · -- parseExpr
        intro s h
        unfold parseExpr
        refine outPred_bind ?_ (fun left s' hs' => ihTail _ s' hs')
        refine outPred_bind (acc_peek h) (fun t s1 hs1 => ?_)
        cases t <;> try exact ihBinOp s1 hs1
        case Not => exact ihUnary s1 hs1
        case Sub => exact ihUnary s1 hs1
        rename_i k
        cases k <;> try exact ihBinOp s1 hs1
        · -- copy
          refine outPred_bind (acc_next hs1) (fun _ s2 hs2 => ?_)
          dsimp only
          exact outPred_bind (acc_identP hs2) (fun name s3 hs3 => hs3)
        · -- ref
          refine outPred_bind (acc_next hs1) (fun _ s2 hs2 => ?_)
          dsimp only
          refine outPred_bind (acc_parseVarType hs2) (fun vt s3 hs3 => ?_)
          exact outPred_bind (acc_identP hs3) (fun name s4 hs4 => hs4)
      · -- parseTailExpr
        intro left s h
        unfold parseTailExpr
        cases s.peekE with
        | error e => exact h
        | ok t =>
            cases t <;> try exact h
            case SquareStart =>
              refine outPred_bind (acc_next h) (fun _ s1 hs1 => ?_)
              dsimp only
              refine outPred_bind (acc_skipNewline n hs1)
                (fun _ s2 hs2 => ?_)
              cases hpe : parseExpr n s2 with
              | panicked => exact trivial
              | fuelOut => exact trivial
              | err e s3 =>
                  have hs3 := accOut_err (ihExpr s2 hs2) hpe
                  dsimp only; split <;> exact hs3
              | ok right s3 =>
                  have hs3 := accOut_ok (ihExpr s2 hs2) hpe
                  refine outPred_bind (acc_skipNewline n hs3)
                    (fun _ s4 hs4 => ?_)
                  cases hn : PState.nextT s4 with
                  | mk r s5 =>
                      have hs5 : GoodAcc s5 := by
                        have h2 := goodAcc_nextT hs4
                        rw [hn] at h2
                        exact h2
                      cases r with
                      | error e2 => dsimp only; split <;> exact hs5
                      | ok t2 =>
                          cases t2 <;> first
                            | exact ihTail _ s5 hs5
                            | exact hs5
            case Dot =>
              refine outPred_bind (acc_next h) (fun _ s1 hs1 => ?_)
              dsimp only
              refine outPred_bind (acc_identP hs1) (fun name s2 hs2 => ?_)
              exact ihTail _ s2 hs2
            case ParenStart =>
              refine outPred_bind
                (acc_parseParenList (fun s2 hs2 => ihExpr s2 hs2) n h)
                (fun items s1 hs1 => ?_)
              dsimp only
              by_cases hlen : items.length > 255
              · simp only [if_pos hlen]
                exact ihTail _ _ (acc_pushErr hs1 (Or.inr (Or.inl rfl)))
              · simp only [if_neg hlen]
                exact ihTail _ _ hs1
            case Newline =>
              cases s.peek1E with
              | error e => exact h
              | ok t2 =>
                  cases t2 <;> try exact h
                  exact outPred_bind (acc_next h)
                    (fun _ s1 hs1 => ihTail _ s1 hs1)
      · -- parseBinOpExpr
        intro s h
        unfold parseBinOpExpr
        dsimp only
        refine outPred_bind (ihParen s h) (fun left s1 hs1 => ?_)
        refine outPred_bind (acc_peek hs1) (fun t s2 hs2 => ?_)
        refine outPred_bind ?_ (fun opOpt s3 hs3 => ?_)
        · cases t <;> exact acc_parseBinOp hs2
        · cases opOpt with
          | none => exact hs3
          | some op =>
              refine outPred_bind (acc_skipNewline n hs3)
                (fun _ s4 hs4 => ?_)
              exact outPred_bind (ihParen s4 hs4) (fun right s5 hs5 => hs5)
      · -- parseUnaryOpExpr
        intro s h
        unfold parseUnaryOpExpr
        refine outPred_bind (acc_next h) (fun t s1 hs1 => ?_)
        cases t <;> try exact hs1
        · exact outPred_bind (ihParen _ hs1) (fun e s2 hs2 => hs2)
        · exact outPred_bind (ihParen _ hs1) (fun e s2 hs2 => hs2)
      · -- parseParenExpr
        intro s h
        unfold parseParenExpr
        refine outPred_bind ?_ (fun left s' hs' => ihTail _ s' hs')
        refine outPred_bind (acc_peek h) (fun t s1 hs1 => ?_)
        cases t <;> try exact ihLit s1 hs1
        refine outPred_bind (acc_next hs1) (fun _ s2 hs2 => ?_)
        dsimp only
        cases hpe : parseExpr n s2 with
        | panicked => exact trivial
        | fuelOut => exact trivial
        | err e s3 =>
            have hs3 := accOut_err (ihExpr s2 hs2) hpe
            dsimp only; split <;> exact hs3
        | ok expr s3 =>
            have hs3 := accOut_ok (ihExpr s2 hs2) hpe
            dsimp only
            cases htn : tryNext .ParenEnd s3 with
            | panicked => exact trivial
            | fuelOut => exact trivial
            | err e2 s4 => exact accOut_err (acc_tryNext hs3) htn
            | ok u s4 => exact accOut_ok (acc_tryNext hs3) htn
      · -- parseLiteralExpr
        intro s h
        unfold parseLiteralExpr
        dsimp only
        cases hn : PState.nextT s with
        | mk r s1 =>
            have hs1 : GoodAcc s1 := by
              have h2 := goodAcc_nextT h
              rw [hn] at h2
              exact h2
            cases r with
            | error e => exact hs1
            | ok t =>
                cases t <;> try exact hs1
                case Ident i =>
                  dsimp only
                  cases s1.peekE with
                  | error e => exact hs1
                  | ok t2 =>
                      cases t2 <;> try exact hs1
                      refine outPred_bind (acc_next hs1)
                        (fun _ s2 hs2 => ?_)
                      exact outPred_bind (acc_identP hs2)
                        (fun r2 s3 hs3 => hs3)
                case CurlyStart => exact ihObj _ _ s1 hs1
                case SquareStart => exact ihList _ _ s1 hs1
                rename_i k
                cases k <;> exact hs1
      · -- parseObjectLoop
        intro a b s h
        unfold parseObjectLoop
        refine outPred_bind (acc_skipNewline n h) (fun _ s1 hs1 => ?_)
        cases s1.peekE with
        | error e => dsimp only; split <;> exact hs1
        | ok t =>
            cases t
            case CurlyEnd =>
              exact outPred_bind (acc_next hs1) (fun _ s2 hs2 => hs2)
            all_goals
              refine outPred_bind (acc_identP hs1) (fun name s2 hs2 => ?_)
              dsimp only
              refine outPred_bind (acc_tryNext hs2) (fun _ s3 hs3 => ?_)
              cases hpe : parseExpr n s3 with
              | panicked => exact trivial
              | fuelOut => exact trivial
              | err e s4 =>
                  have hs4 := accOut_err (ihExpr s3 hs3) hpe
                  dsimp only; split <;> exact hs4
              | ok expr s4 =>
                  have hs4 := accOut_ok (ihExpr s3 hs3) hpe
                  refine outPred_bind (acc_skipNewline n hs4)
                    (fun _ s5 hs5 => ?_)
                  cases hn : PState.nextT s5 with
                  | mk r s6 =>
                      have hs6 : GoodAcc s6 := by
                        have h2 := goodAcc_nextT hs5
                        rw [hn] at h2
                        exact h2
                      cases r with
                      | error e2 => dsimp only; split <;> exact hs6
                      | ok t2 =>
                          cases t2 <;> first
                            | exact ihObj _ _ s6 hs6
                            | exact hs6
      · -- parseListLoop
        intro a b s h
        unfold parseListLoop
        refine outPred_bind (acc_skipNewline n h) (fun _ s1 hs1 => ?_)
        cases s1.peekE with
        | error e => dsimp only; split <;> exact hs1
        | ok t =>
            cases t
            case SquareEnd =>
              exact outPred_bind (acc_next hs1) (fun _ s2 hs2 => hs2)
            all_goals
              cases hpe : parseExpr n s1 with
              | panicked => exact trivial
              | fuelOut => exact trivial
              | err e s2 =>
                  have hs2 := accOut_err (ihExpr s1 hs1) hpe
                  dsimp only; split <;> exact hs2
              | ok expr s2 =>
                  have hs2 := accOut_ok (ihExpr s1 hs1) hpe
                  refine outPred_bind (acc_skipNewline n hs2)
                    (fun _ s3 hs3 => ?_)
                  cases hn : PState.nextT s3 with
                  | mk r s4 =>
                      have hs4 : GoodAcc s4 := by
                        have h2 := goodAcc_nextT hs3
                        rw [hn] at h2
                        exact h2
                      cases r with
                      | error e2 => dsimp only; split <;> exact hs4
                      | ok t2 =>
                          cases t2 <;> first
                            | exact ihList _ _ s4 hs4
                            | exact hs4

/-- The statement loop of `parse_file` preserves the accumulator
invariant. -/
theorem acc_parseFileLoop (fuel : Nat) :
    ∀ items, AccPM (parseFileLoop fuel items) := by
  induction fuel with
  | zero => intro items s h; unfold parseFileLoop; exact trivial
  | succ n ih =>
      intro items s h
      unfold parseFileLoop
      split
      · exact h
      · refine outPred_bind ((accAll n).1 s h) (fun st s1 hs1 => ?_)
        refine outPred_bind (acc_skipNewline n hs1) (fun _ s2 hs2 => ?_)
        exact ih _ s2 hs2

/-- `parse_file` preserves the accumulator invariant. -/
theorem acc_parseFile (fuel : Nat) : AccPM (parseFile fuel) := by
  cases fuel with
  | zero => intro s h; unfold parseFile; exact trivial
  | succ n =>
      intro s h
      unfold parseFile
      exact outPred_bind (acc_skipNewline n h)
        (fun _ s1 hs1 => acc_parseFileLoop n [] s1 hs1)

/-- A freshly constructed parser has an empty (hence invariant-satisfying)
accumulator. -/
theorem goodAcc_mkParser (toks : List (LexItem × Span)) (sourceLen : Nat)
    (csym : Symbol) : GoodAcc (mkParser toks sourceLen csym) := by
  have h : (mkParser toks sourceLen csym).nonFatal = [] := by
    unfold mkParser
    dsimp only
    rw [nextT_snd_nonFatal, nextT_snd_nonFatal]
  intro e he
  rw [h] at he
  exact absurd he (List.not_mem_nil e)

/-- **C9.** Non-fatal accumulator discipline.  (1) On every token stream,
at every fuel, every diagnostic in the accumulator of a completed
`parse_file` run is one of the four recoverable kinds — too-many-params,
too-many-args, constructor-redefined, constructor-required — so any other
error kind can only travel through the fatal channel.  (2) On the
duplicate-constructor input `class C { constructor(){} ⏎ constructor(){} }`
the parse still returns the class node, the newest constructor (function
id `1`, spanning the second definition `⟨28, 44⟩`) is the one kept in the
node, and the accumulator holds exactly the two-location
constructor-redefined diagnostic whose first span `⟨10, 26⟩` is the earlier
constructor's and whose second span `⟨28, 44⟩` is the new one's.  (3) A
fatal error (an unexpected token here) is returned in the error channel
with nothing appended to the accumulator. -/
theorem C9_nonfatal_accumulator :
    (∀ fuel toks sourceLen csym l e,
        (parseFile fuel (mkParser toks sourceLen csym)).accum = some l →
        e ∈ l → recoverable e) ∧
    ((match (parseFile 40 (mkParser dupCtorToks 46 99)).result with
      | some [Stmt.Class ⟨0, 46⟩ 0 0 1
          (some (Function.mk 0 .Normal 1 ⟨28, 44⟩ 99 []
            (Block.mk ⟨42, 44⟩ []))) [] [] []] => true
      | _ => false) = true ∧
     (parseFile 40 (mkParser dupCtorToks 46 99)).accum
       = some [Error.two_location ⟨10, 26⟩ ⟨28, 44⟩
           "Constructor previously defined here" .ConstructorRedefined]) ∧
    ((parseFile 30 (mkParser [tk .ParenEnd 0 1] 1 99)).fatal
       = some (Error.token ⟨0, 1⟩) ∧
     (parseFile 30 (mkParser [tk .ParenEnd 0 1] 1 99)).accum
       = some []) := by
  refine ⟨?_, ⟨by decide!, by decide!⟩, ⟨by decide!, by decide!⟩⟩
  intro fuel toks sourceLen csym l e hl he
  have hacc : AccOut (parseFile fuel (mkParser toks sourceLen csym)) :=
    acc_parseFile fuel _ (goodAcc_mkParser toks sourceLen csym)
  cases hout : parseFile fuel (mkParser toks sourceLen csym) with
  | ok a s' =>
      rw [hout] at hacc hl
      simp only [POut.accum, Option.some.injEq] at hl
      rw [← hl] at he
      exact hacc e he
  | err e2 s' =>
      rw [hout] at hacc hl
      simp only [POut.accum, Option.some.injEq] at hl
      rw [← hl] at he
      exact hacc e he
  | panicked => rw [hout] at hl; exact absurd hl (by simp [POut.accum])
  | fuelOut => rw [hout] at hl; exact absurd hl (by simp [POut.accum])

/-- Witness for C9: instantiating the universal accumulator conjunct on
the duplicate-constructor input yields recoverability of the concrete
two-location diagnostic recorded there. -/
theorem C9_nonfatal_accumulator_witness :
    recoverable (Error.two_location ⟨10, 26⟩ ⟨28, 44⟩
      "Constructor previously defined here" .ConstructorRedefined) :=
  C9_nonfatal_accumulator.1 40 dupCtorToks 46 99
    [Error.two_location ⟨10, 26⟩ ⟨28, 44⟩
      "Constructor previously defined here" .ConstructorRedefined]
    (Error.two_location ⟨10, 26⟩ ⟨28, 44⟩
      "Constructor previously defined here" .ConstructorRedefined)
    (by decide!) (List.Mem.head _)

/-- Claim C7 (amended): an unterminated parenthesized expression is
reported as a single unclosed-parenthesis diagnostic whenever the end of
input surfaces at the parenthesized parse itself.  (1) For `( 1 + 2` then
end of input the file parse fails with exactly the fatal `UnclosedParen`
spanning `0..4` — opening `(` to the failure point — and an empty
non-fatal accumulator.  (2) For arbitrary token spans, integer payloads
and source length `L`, `( i + j` then end of input yields the fatal
`UnclosedParen` spanning from the `(` token's start to `L`, accumulator
empty.  (3) Universally over all fuels and states: whenever the inner
expression parse returns an unexpected-end-of-input error,
`parse_paren_expr` rewrites it into `UnclosedParen` running from the `(`
to the current lookahead's end; and (4) whenever the inner expression
parses but the closing `)` is not next, the failure is likewise rewritten
into that `UnclosedParen`.  Inner routines may transmute the end-of-input
error before it reaches `parse_paren_expr` — see the counterexample —
which is the one escape from this discipline. -/
theorem C7_amended_unclosed_paren :
    ((parseFile 30 (mkParser [tk .ParenStart 0 1, tk (.Integer 1) 1 2,
        tk .Add 2 3, tk (.Integer 2) 3 4] 4 100)).fatal
      = some (Error.new ⟨0, 4⟩ .UnclosedParen)
     ∧ (parseFile 30 (mkParser [tk .ParenStart 0 1, tk (.Integer 1) 1 2,
        tk .Add 2 3, tk (.Integer 2) 3 4] 4 100)).accum = some []) ∧
    (∀ (i j : Int) (sp1 sp2 sp3 sp4 : Span) (L : Nat),
        (parseExpr 30 (mkParser [(LexItem.tok .ParenStart, sp1),
            (LexItem.tok (.Integer i), sp2), (LexItem.tok .Add, sp3),
            (LexItem.tok (.Integer j), sp4)] L 100)).fatal
          = some (Error.new ⟨sp1.start, L⟩ .UnclosedParen)
        ∧ (parseExpr 30 (mkParser [(LexItem.tok .ParenStart, sp1),
            (LexItem.tok (.Integer i), sp2), (LexItem.tok .Add, sp3),
            (LexItem.tok (.Integer j), sp4)] L 100)).accum = some []) ∧
    (∀ (fuel : Nat) (s : PState) (e : Error) (s2 : PState),
        s.peekE = .ok .ParenStart →
        parseExpr fuel (PState.nextT s).2 = .err e s2 →
        e.errType = .UnexpectedEOF →
        parseParenExpr (fuel + 1) s
          = .err (Error.new ⟨(PState.nextT s).2.span.start,
              s2.peekSpan.stop⟩ .UnclosedParen) s2) ∧
    (∀ (fuel : Nat) (s : PState) (expr : Expr) (s2 : PState)
        (e2 : Error) (s3 : PState),
        s.peekE = .ok .ParenStart →
        parseExpr fuel (PState.nextT s).2 = .ok expr s2 →
        tryNext .ParenEnd s2 = .err e2 s3 →
        parseParenExpr (fuel + 1) s
          = .err (Error.new ⟨(PState.nextT s).2.span.start,
              s3.peekSpan.stop⟩ .UnclosedParen) s3) := by
  refine ⟨⟨by decide!, by decide!⟩, ?_, ?_, ?_⟩
  · intro i j sp1 sp2 sp3 sp4 L
    exact ⟨rfl, rfl⟩
  · intro fuel s e s2 hp he het
    unfold parseParenExpr
    refine bind_err ?_
    rw [bind_peek_of_peek hp]
    dsimp only
    rw [bind_next_of_peek hp]
    simp only [he]
    rw [if_pos het]
  · intro fuel s expr s2 e2 s3 hp he htn
    unfold parseParenExpr
    refine bind_err ?_
    rw [bind_peek_of_peek hp]
    dsimp only
    rw [bind_next_of_peek hp]
    simp only [he]
    rw [htn]

/-- Witness for C7's amended universal: instantiating the end-of-input
rewrite conjunct on the one-token stream `(` yields the concrete
`UnclosedParen` spanning `0..1`. -/
theorem C7_amended_unclosed_paren_witness :
    parseParenExpr 30 (mkParser [tk .ParenStart 0 1] 1 100)
      = .err (Error.new ⟨0, 1⟩ .UnclosedParen)
          { rest := [], la0 := none, la1 := none, s0 := ⟨0, 1⟩,
            s1 := ⟨1, 1⟩, s2 := ⟨1, 1⟩, sourceLen := 1, nonFatal := [],
            funcCount := 0, classCount := 0, constructorSym := 100 } :=
  C7_amended_unclosed_paren.2.2.1 29 (mkParser [tk .ParenStart 0 1] 1 100)
    (Error.new ⟨0, 1⟩ .UnexpectedEOF)
    { rest := [], la0 := none, la1 := none, s0 := ⟨0, 1⟩,
      s1 := ⟨1, 1⟩, s2 := ⟨1, 1⟩, sourceLen := 1, nonFatal := [],
      funcCount := 0, classCount := 0, constructorSym := 100 }
    rfl rfl rfl

end TestLang
